import Mathlib

/-!
# Inventory Ledger: shallow embedding and verification

A shallow embedding of the IMS inventory ledger
(`ims-service/internal/repository/inventory_repository.go`,
`ims-service/internal/service/inventory_service.go`, and the data model in
`internal/models`), followed by theorems settling the frozen claims about it.

Modelling conventions:
* UUIDs become `Nat` identifiers (`0` plays the role of `uuid.Nil`).
* Go `int` counters become `Int` (overflow is irrelevant to the claims).
* The Postgres store becomes a `Store` of lists; GORM's `First` becomes
  `List.find?`, conditional `Update` becomes a guarded `List.map` whose
  `RowsAffected` is the number of matching rows.
* The Redis cache becomes a `CacheState`: either `down` (every cache call
  fails, which the Go code treats exactly like a miss / ignored write) or
  `up` with an association list.  Cache key strings
  (`inventory:tenant:%s:hub:%s:sku:%s`, `inventory:tenant:%s:page:%d:size:%d`,
  `inventory:tenant:%s:count`) are represented by the structured type
  `CacheKey`; the three formats can never collide for real (colon-free)
  codes, and tenant-prefix invalidation (`inventory:tenant:%s:*`) becomes
  deletion of every key with that tenant component.
* Each Go function becomes a pure function threading `Store` and
  `CacheState` explicitly; fallible calls return `Except String`.
-/

namespace IMS

instance {ε α : Type} [DecidableEq ε] [DecidableEq α] :
    DecidableEq (Except ε α) := fun a b =>
  match a, b with
  | Except.error x, Except.error y =>
    if h : x = y then isTrue (by rw [h])
    else isFalse (fun hc => h (by injection hc))
  | Except.ok x, Except.ok y =>
    if h : x = y then isTrue (by rw [h])
    else isFalse (fun hc => h (by injection hc))
  | Except.error x, Except.ok y => isFalse (fun hc => by injection hc)
  | Except.ok x, Except.error y => isFalse (fun hc => by injection hc)

/-- `models.Hub` (fields relevant to the ledger: identity and code). -/
structure Hub where
  id : Nat
  tenantId : Nat
  code : String
deriving DecidableEq, Repr

/-- `models.SKU` (fields relevant to the ledger: identity, seller, code). -/
structure SKU where
  id : Nat
  tenantId : Nat
  sellerId : Nat
  code : String
deriving DecidableEq, Repr

/-- `models.Inventory`: the four counters for one (tenant, hub, sku). -/
structure Inventory where
  tenantId : Nat
  hubId : Nat
  skuId : Nat
  quantity : Int
  available : Int
  reserved : Int
  inTransit : Int
deriving DecidableEq, Repr

/-- `models.InventoryUpdate`: one upsert instruction. -/
structure InventoryUpdate where
  hubCode : String
  skuCode : String
  quantity : Int
deriving DecidableEq, Repr

/-- `models.InventoryFilter` (tenant id pre-parsed; `sellerId = none`
models the empty string). -/
structure InventoryFilter where
  tenantId : Nat
  hubCode : String
  sellerId : Option Nat
  skuCodes : List String
  page : Int
  pageSize : Int
deriving DecidableEq, Repr

/-- The durable store: one table per entity. -/
structure Store where
  hubs : List Hub
  skus : List SKU
  inventories : List Inventory
deriving DecidableEq, Repr

/-- A row as returned by `GetInventory`, with GORM `Preload`ed `SKU` and
`Hub` associations (`none` models the zero struct, id `uuid.Nil`). -/
structure InvRow where
  inv : Inventory
  sku : Option SKU
  hub : Option Hub
deriving DecidableEq, Repr

/-! ## Cache model -/

/-- Structured form of the Redis key strings used by the inventory
repository. -/
inductive CacheKey where
  | item (t : Nat) (hubCode skuCode : String)
  | listing (t : Nat) (page pageSize : Int)
  | countOf (t : Nat)
deriving DecidableEq, Repr

/-- Values stored in the cache (JSON-decoded shapes; decoding a value of
the wrong shape fails in Go and is treated as a miss). -/
inductive CacheVal where
  | invVal (v : Inventory)
  | rowsVal (v : List InvRow)
  | countVal (v : Int)
deriving DecidableEq, Repr

/-- The Redis client: `down` makes every operation fail (the Go callers
treat a failed `Get` as a miss and ignore failed `Set`/`Del`). -/
inductive CacheState where
  | down
  | up (entries : List (CacheKey × CacheVal))
deriving DecidableEq, Repr

def cacheGet (c : CacheState) (k : CacheKey) : Option CacheVal :=
  match c with
  | .down => none
  | .up es => (es.find? (fun e => e.1 == k)).map (fun e => e.2)

def cacheSet (c : CacheState) (k : CacheKey) (v : CacheVal) : CacheState :=
  match c with
  | .down => .down
  | .up es => .up ((k, v) :: es.filter (fun e => e.1 != k))

def cacheDel (c : CacheState) (k : CacheKey) : CacheState :=
  match c with
  | .down => .down
  | .up es => .up (es.filter (fun e => e.1 != k))

/-- The tenant component of a key (every inventory key string starts with
`inventory:tenant:<t>:`). -/
def keyTenant : CacheKey → Nat
  | .item t _ _ => t
  | .listing t _ _ => t
  | .countOf t => t

/-- `redis.Keys("inventory:tenant:<t>:*")` followed by `Del`. -/
def cacheDelTenant (c : CacheState) (t : Nat) : CacheState :=
  match c with
  | .down => .down
  | .up es => .up (es.filter (fun e => keyTenant e.1 != t))

/-- `inventoryRepository.invalidateCache`: delete the item key, then every
key of the tenant. -/
def invalidateCache (c : CacheState) (t : Nat) (hc sc : String) : CacheState :=
  cacheDelTenant (cacheDel c (CacheKey.item t hc sc)) t

/-! ## Catalog resolution and row lookup -/

/-- `hubRepository.GetByCode` modulo its private (coherent) cache: a
`First` on `tenant_id = ? AND code = ?`.  `none` models its error return. -/
def hubGetByCode (st : Store) (t : Nat) (code : String) : Option Hub :=
  st.hubs.find? (fun h => h.tenantId == t && h.code == code)

/-- `skuRepository.GetByCode`, likewise. -/
def skuGetByCode (st : Store) (t : Nat) (code : String) : Option SKU :=
  st.skus.find? (fun s => s.tenantId == t && s.code == code)

/-- Predicate of the repeated WHERE clause
`tenant_id = ? AND hub_id = ? AND sku_id = ?`. -/
def rowKeyed (t h s : Nat) (i : Inventory) : Bool :=
  i.tenantId == t && i.hubId == h && i.skuId == s

/-- `First` on the inventory WHERE clause. -/
def findInv (st : Store) (t h s : Nat) : Option Inventory :=
  st.inventories.find? (rowKeyed t h s)

/-- `RowsAffected` of a conditional update on the inventory WHERE clause. -/
def matchCount (st : Store) (t h s : Nat) : Nat :=
  (st.inventories.filter (rowKeyed t h s)).length

/-- `UPDATE .. SET reserved = reserved + ?` on the keyed rows. -/
def setReserved (st : Store) (t h s : Nat) (delta : Int) : Store :=
  { st with inventories := st.inventories.map (fun i =>
      if rowKeyed t h s i then { i with reserved := i.reserved + delta } else i) }

/-- `UPDATE .. SET available = available + ?` on the keyed rows. -/
def setAvailable (st : Store) (t h s : Nat) (delta : Int) : Store :=
  { st with inventories := st.inventories.map (fun i =>
      if rowKeyed t h s i then { i with available := i.available + delta } else i) }

/-- The zero-valued record synthesized for an absent row. -/
def zeroInv (t h s : Nat) : Inventory :=
  { tenantId := t, hubId := h, skuId := s,
    quantity := 0, available := 0, reserved := 0, inTransit := 0 }

/-! ## Repository layer -/

/-- Result of a mutating repository/service call: outcome, resulting
durable store, resulting cache. -/
abbrev MutRes := Except String Unit × Store × CacheState

/-- The database path of `inventoryRepository.GetInventoryItem`: resolve
hub and SKU, `First` the row, synthesize a zero record when absent
(zero records are not cached; found rows are). -/
def dbGetInventoryItem (st : Store) (c : CacheState) (t : Nat) (hc sc : String) :
    Except String Inventory × CacheState :=
  match hubGetByCode st t hc with
  | none => (Except.error ("failed to get hub: hub not found with code: " ++ hc), c)
  | some hub =>
    match skuGetByCode st t sc with
    | none => (Except.error ("failed to get SKU: SKU not found with code: " ++ sc), c)
    | some sku =>
      match findInv st t hub.id sku.id with
      | none => (Except.ok (zeroInv t hub.id sku.id), c)
      | some inv =>
        (Except.ok inv, cacheSet c (CacheKey.item t hc sc) (CacheVal.invVal inv))

/-- `inventoryRepository.GetInventoryItem`: cache-first (a hit requires a
value of the item shape), otherwise the database path. -/
def repoGetInventoryItem (st : Store) (c : CacheState) (t : Nat) (hc sc : String) :
    Except String Inventory × CacheState :=
  match cacheGet c (CacheKey.item t hc sc) with
  | some (CacheVal.invVal v) => (Except.ok v, c)
  | _ => dbGetInventoryItem st c t hc sc

/-- `inventoryRepository.UpdateReservedQuantity`: re-read the item (for its
ids), apply the relative update, error on zero rows affected, invalidate
the tenant's cache entries on success. -/
def repoUpdateReservedQuantity (st : Store) (c : CacheState) (t : Nat) (hc sc : String)
    (delta : Int) : MutRes :=
  match repoGetInventoryItem st c t hc sc with
  | (Except.error e, c1) => (Except.error ("failed to get inventory: " ++ e), st, c1)
  | (Except.ok inv, c1) =>
    if matchCount st t inv.hubId inv.skuId == 0 then
      (Except.error "inventory record is out of date, please refresh and try again", st, c1)
    else
      (Except.ok (), setReserved st t inv.hubId inv.skuId delta, invalidateCache c1 t hc sc)

/-- `inventoryRepository.UpdateAvailableQuantity`, symmetric to the
reserved update. -/
def repoUpdateAvailableQuantity (st : Store) (c : CacheState) (t : Nat) (hc sc : String)
    (delta : Int) : MutRes :=
  match repoGetInventoryItem st c t hc sc with
  | (Except.error e, c1) => (Except.error ("failed to get inventory: " ++ e), st, c1)
  | (Except.ok inv, c1) =>
    if matchCount st t inv.hubId inv.skuId == 0 then
      (Except.error "inventory record is out of date, please refresh and try again", st, c1)
    else
      (Except.ok (), setAvailable st t inv.hubId inv.skuId delta, invalidateCache c1 t hc sc)

/-- One iteration of the transaction loop in
`inventoryRepository.UpsertInventory`: resolve the codes against the
committed store, conditionally update `quantity` on the pending rows,
insert a fresh record (flow counters at their Go zero values) when no row
was affected. -/
def applyUpd (st : Store) (work : List Inventory) (t : Nat) (u : InventoryUpdate) :
    Except String (List Inventory) :=
  match hubGetByCode st t u.hubCode with
  | none => Except.error ("invalid hub code " ++ u.hubCode)
  | some hub =>
    match skuGetByCode st t u.skuCode with
    | none => Except.error ("invalid SKU code " ++ u.skuCode)
    | some sku =>
      let n := (work.filter (rowKeyed t hub.id sku.id)).length
      let work1 := work.map (fun i =>
        if rowKeyed t hub.id sku.id i then { i with quantity := u.quantity } else i)
      if n == 0 then
        Except.ok (work1 ++
          [{ tenantId := t, hubId := hub.id, skuId := sku.id,
             quantity := u.quantity, available := 0, reserved := 0, inTransit := 0 }])
      else
        Except.ok work1

/-- The transaction body: fold the updates over the pending row list; the
first failure aborts (rollback). -/
def applyUpds (st : Store) (t : Nat) : List Inventory → List InventoryUpdate →
    Except String (List Inventory)
  | work, [] => Except.ok work
  | work, u :: rest =>
    match applyUpd st work t u with
    | Except.error e => Except.error e
    | Except.ok w1 => applyUpds st t w1 rest

/-- `inventoryRepository.UpsertInventory`: all updates inside one
transaction; on any failure the store is left as it was, on success the
pending rows are committed.  (The source performs no cache invalidation
here.) -/
def repoUpsertInventory (st : Store) (c : CacheState) (t : Nat)
    (updates : List InventoryUpdate) : MutRes :=
  match applyUpds st t st.inventories updates with
  | Except.error e => (Except.error e, st, c)
  | Except.ok work => (Except.ok (), { st with inventories := work }, c)

/-- GORM `Preload("SKU").Preload("Hub")` on one fetched row. -/
def preloadRow (st : Store) (i : Inventory) : InvRow :=
  { inv := i,
    sku := st.skus.find? (fun s => s.id == i.skuId),
    hub := st.hubs.find? (fun h => h.id == i.hubId) }

/-- The filtered query built by `inventoryRepository.GetInventory` before
pagination: tenant scope, optional hub filter (resolving the code),
optional seller join, optional SKU-code join. -/
def dbQueryRows (st : Store) (f : InventoryFilter) : Except String (List Inventory) :=
  let base := st.inventories.filter (fun i => i.tenantId == f.tenantId)
  let hubStep : Except String (List Inventory) :=
    if f.hubCode == "" then Except.ok base
    else
      match hubGetByCode st f.tenantId f.hubCode with
      | none => Except.error "invalid hub code"
      | some hub => Except.ok (base.filter (fun i => i.hubId == hub.id))
  match hubStep with
  | Except.error e => Except.error e
  | Except.ok rows1 =>
    let rows2 := match f.sellerId with
      | none => rows1
      | some sid => rows1.filter (fun i =>
          st.skus.any (fun s => s.id == i.skuId && s.sellerId == sid))
    let rows3 :=
      if f.skuCodes.isEmpty then rows2
      else rows2.filter (fun i =>
          st.skus.any (fun s => s.id == i.skuId && f.skuCodes.contains s.code))
    Except.ok rows3

/-- Database branch of `inventoryRepository.GetInventory`: count before
pagination, then `Offset/Limit` and preload. -/
def dbGetInventory (st : Store) (f : InventoryFilter) :
    Except String (List InvRow × Int) :=
  match dbQueryRows st f with
  | Except.error e => Except.error e
  | Except.ok all =>
    let total : Int := all.length
    let paged := (all.drop ((f.page - 1) * f.pageSize).toNat).take f.pageSize.toNat
    Except.ok (paged.map (preloadRow st), total)

/-- `inventoryRepository.GetInventory`: the listing cache is consulted and
refreshed only when no filter beyond pagination is present; the count key
is kept alongside it. -/
def repoGetInventory (st : Store) (c : CacheState) (f : InventoryFilter) :
    Except String (List InvRow × Int) × CacheState :=
  let unfiltered := f.hubCode == "" && f.sellerId.isNone && f.skuCodes.isEmpty
  let cachedBranch : Option (Except String (List InvRow × Int) × CacheState) :=
    if unfiltered then
      match cacheGet c (CacheKey.listing f.tenantId f.page f.pageSize) with
      | some (CacheVal.rowsVal rows) =>
        match cacheGet c (CacheKey.countOf f.tenantId) with
        | some (CacheVal.countVal n) => some (Except.ok (rows, n), c)
        | _ =>
          let total : Int :=
            (st.inventories.filter (fun i => i.tenantId == f.tenantId)).length
          some (Except.ok (rows, total),
            cacheSet c (CacheKey.countOf f.tenantId) (CacheVal.countVal total))
      | _ => none
    else none
  match cachedBranch with
  | some r => r
  | none =>
    match dbGetInventory st f with
    | Except.error e => (Except.error e, c)
    | Except.ok (rows, total) =>
      if unfiltered then
        (Except.ok (rows, total),
          cacheSet
            (cacheSet c (CacheKey.listing f.tenantId f.page f.pageSize)
              (CacheVal.rowsVal rows))
            (CacheKey.countOf f.tenantId) (CacheVal.countVal total))
      else
        (Except.ok (rows, total), c)

/-! ## Service layer -/

/-- The per-entry validation loop of `inventoryService.UpsertInventory`,
reporting the first offending index. -/
def validateUpds : Nat → List InventoryUpdate → Option String
  | _, [] => none
  | i, u :: rest =>
    if u.hubCode == "" then
      some ("hub code is required for update at index " ++ toString i)
    else if u.skuCode == "" then
      some ("SKU code is required for update at index " ++ toString i)
    else if u.quantity < 0 then
      some ("quantity cannot be negative for update at index " ++ toString i)
    else
      validateUpds (i + 1) rest

/-- The fixed-size batching loop (`batchSize := 100`): the Go `for` loop
visits offsets `0, 100, 200, ...` below the length and slices
`updates[i:min(i+100, len)]`, i.e. batch `i` is `(drop (100*i)).take 100`. -/
def chunks100 (l : List InventoryUpdate) : List (List InventoryUpdate) :=
  (List.range ((l.length + 99) / 100)).map (fun i => (l.drop (100 * i)).take 100)

/-- Apply the batches in order; a failing batch aborts the remainder but
leaves earlier batches committed. -/
def runBatches (t : Nat) : Store → CacheState → List (List InventoryUpdate) → MutRes
  | st, c, [] => (Except.ok (), st, c)
  | st, c, b :: rest =>
    match repoUpsertInventory st c t b with
    | (Except.error e, st1, c1) =>
      (Except.error ("failed to upsert inventory batch: " ++ e), st1, c1)
    | (Except.ok _, st1, c1) => runBatches t st1 c1 rest

/-- `inventoryService.UpsertInventory`: reject empty input, validate every
entry, then drive the repository upsert in chunks of 100. -/
def svcUpsertInventory (st : Store) (c : CacheState) (t : Nat)
    (updates : List InventoryUpdate) : MutRes :=
  if updates.isEmpty then (Except.error "no inventory updates provided", st, c)
  else
    match validateUpds 0 updates with
    | some e => (Except.error e, st, c)
    | none => runBatches t st c (chunks100 updates)

/-- `inventoryService.GetInventoryItem`: non-blank code validation, then
the repository read.  (The repository never yields a `nil` record without
an error, so the service's zero-record branch is dead code.) -/
def svcGetInventoryItem (st : Store) (c : CacheState) (t : Nat) (hc sc : String) :
    Except String Inventory × CacheState :=
  if hc == "" then (Except.error "hub code is required", c)
  else if sc == "" then (Except.error "SKU code is required", c)
  else
    match repoGetInventoryItem st c t hc sc with
    | (Except.error e, c1) => (Except.error ("failed to get inventory item: " ++ e), c1)
    | (Except.ok inv, c1) => (Except.ok inv, c1)

/-- `inventoryService.ReserveInventory`: validate `quantity > 0`, read,
check `available`, increment `reserved`, decrement `available`,
compensating (best effort) if the second update fails. -/
def svcReserveInventory (st : Store) (c : CacheState) (t : Nat) (hc sc : String)
    (q : Int) : MutRes :=
  if q ≤ 0 then (Except.error "quantity must be greater than zero", st, c)
  else
    match svcGetInventoryItem st c t hc sc with
    | (Except.error e, c1) => (Except.error ("failed to get inventory: " ++ e), st, c1)
    | (Except.ok inv, c1) =>
      if inv.available < q then
        (Except.error "insufficient available quantity", st, c1)
      else
        match repoUpdateReservedQuantity st c1 t hc sc q with
        | (Except.error e, st1, c2) =>
          (Except.error ("failed to reserve inventory: " ++ e), st1, c2)
        | (Except.ok _, st1, c2) =>
          match repoUpdateAvailableQuantity st1 c2 t hc sc (-q) with
          | (Except.error e, st2, c3) =>
            let comp := repoUpdateReservedQuantity st2 c3 t hc sc (-q)
            (Except.error ("failed to update available quantity: " ++ e),
              comp.2.1, comp.2.2)
          | (Except.ok _, st2, c3) => (Except.ok (), st2, c3)

/-- `inventoryService.ReleaseInventory`: the inverse transition, guarded by
`reserved`. -/
def svcReleaseInventory (st : Store) (c : CacheState) (t : Nat) (hc sc : String)
    (q : Int) : MutRes :=
  if q ≤ 0 then (Except.error "quantity must be greater than zero", st, c)
  else
    match svcGetInventoryItem st c t hc sc with
    | (Except.error e, c1) => (Except.error ("failed to get inventory: " ++ e), st, c1)
    | (Except.ok inv, c1) =>
      if inv.reserved < q then
        (Except.error "insufficient reserved quantity", st, c1)
      else
        match repoUpdateReservedQuantity st c1 t hc sc (-q) with
        | (Except.error e, st1, c2) =>
          (Except.error ("failed to release inventory: " ++ e), st1, c2)
        | (Except.ok _, st1, c2) =>
          match repoUpdateAvailableQuantity st1 c2 t hc sc q with
          | (Except.error e, st2, c3) =>
            let comp := repoUpdateReservedQuantity st2 c3 t hc sc q
            (Except.error ("failed to update available quantity: " ++ e),
              comp.2.1, comp.2.2)
          | (Except.ok _, st2, c3) => (Except.ok (), st2, c3)

/-- `inventoryService.FulfillInventory`: consume reserved stock; the total
quantity is rewritten through the repository upsert with the freshly read
quantity minus the fulfilled amount. -/
def svcFulfillInventory (st : Store) (c : CacheState) (t : Nat) (hc sc : String)
    (q : Int) : MutRes :=
  if q ≤ 0 then (Except.error "quantity must be greater than zero", st, c)
  else
    match svcGetInventoryItem st c t hc sc with
    | (Except.error e, c1) => (Except.error ("failed to get inventory: " ++ e), st, c1)
    | (Except.ok inv, c1) =>
      if inv.reserved < q then
        (Except.error "insufficient reserved quantity", st, c1)
      else
        match repoUpdateReservedQuantity st c1 t hc sc (-q) with
        | (Except.error e, st1, c2) =>
          (Except.error ("failed to update reserved quantity: " ++ e), st1, c2)
        | (Except.ok _, st1, c2) =>
          match repoUpsertInventory st1 c2 t
              [{ hubCode := hc, skuCode := sc, quantity := inv.quantity - q }] with
          | (Except.error e, st2, c3) =>
            let comp := repoUpdateReservedQuantity st2 c3 t hc sc q
            (Except.error ("failed to update total quantity: " ++ e),
              comp.2.1, comp.2.2)
          | (Except.ok _, st2, c3) => (Except.ok (), st2, c3)

/-- Pagination normalization at the top of `inventoryService.GetInventory`
(page defaults to 1, page size to 20, maximum 100). -/
def normFilter (f : InventoryFilter) : InventoryFilter :=
  { f with
    page := if f.page ≤ 0 then 1 else f.page,
    pageSize := if f.pageSize ≤ 0 || f.pageSize > 100 then 20 else f.pageSize }

/-- Order-keeping deduplication, modelling the `skuSet` map built from the
requested codes (Go map iteration order is arbitrary; the claims are
order-insensitive). -/
def codeSet (codes : List String) : List String :=
  codes.foldl (fun acc c => if acc.contains c then acc else acc ++ [c]) []

/-- The zero-quantity padding loop of `inventoryService.GetInventory`:
codes that do not resolve are skipped silently; resolvable missing codes
yield an all-zero record attributed to the SKU (the source leaves `HubID`
at `uuid.Nil` and attaches the hub struct only under a hub filter). -/
def zeroPad (st : Store) (t : Nat) (f : InventoryFilter) (missing : List String) :
    List InvRow :=
  missing.filterMap (fun code =>
    match skuGetByCode st t code with
    | none => none
    | some sku =>
      some { inv := { tenantId := t, hubId := 0, skuId := sku.id,
                      quantity := 0, available := 0, reserved := 0, inTransit := 0 },
             sku := some sku,
             hub := if f.hubCode != "" then hubGetByCode st t f.hubCode else none })

/-- `inventoryService.GetInventory`: normalize pagination, query the
repository, and when a SKU-code filter was given pad the result with
zero records for requested codes that were not among the returned rows. -/
def svcGetInventory (st : Store) (c : CacheState) (f0 : InventoryFilter) :
    Except String (List InvRow × Int) × CacheState :=
  let f := normFilter f0
  match repoGetInventory st c f with
  | (Except.error e, c1) => (Except.error ("failed to get inventory: " ++ e), c1)
  | (Except.ok (rows, total), c1) =>
    if f.skuCodes.isEmpty then (Except.ok (rows, total), c1)
    else
      let foundCodes := rows.filterMap (fun r => r.sku.map SKU.code)
      let missing := (codeSet f.skuCodes).filter (fun code => !(foundCodes.contains code))
      (Except.ok (rows ++ zeroPad st f.tenantId f missing, total), c1)

/-! ## Cache-free reference semantics

The spec's "no cache present" reading of each ledger operation: the same
control flow with every cache interaction removed.  These definitions
follow the spec's failure-semantics sentence, to be compared with the
cache-threading embeddings above. -/

def refGetInventoryItem (st : Store) (t : Nat) (hc sc : String) :
    Except String Inventory :=
  match hubGetByCode st t hc with
  | none => Except.error ("failed to get hub: hub not found with code: " ++ hc)
  | some hub =>
    match skuGetByCode st t sc with
    | none => Except.error ("failed to get SKU: SKU not found with code: " ++ sc)
    | some sku =>
      match findInv st t hub.id sku.id with
      | none => Except.ok (zeroInv t hub.id sku.id)
      | some inv => Except.ok inv

def refUpdateReservedQuantity (st : Store) (t : Nat) (hc sc : String) (delta : Int) :
    Except String Unit × Store :=
  match refGetInventoryItem st t hc sc with
  | Except.error e => (Except.error ("failed to get inventory: " ++ e), st)
  | Except.ok inv =>
    if matchCount st t inv.hubId inv.skuId == 0 then
      (Except.error "inventory record is out of date, please refresh and try again", st)
    else
      (Except.ok (), setReserved st t inv.hubId inv.skuId delta)

def refUpdateAvailableQuantity (st : Store) (t : Nat) (hc sc : String) (delta : Int) :
    Except String Unit × Store :=
  match refGetInventoryItem st t hc sc with
  | Except.error e => (Except.error ("failed to get inventory: " ++ e), st)
  | Except.ok inv =>
    if matchCount st t inv.hubId inv.skuId == 0 then
      (Except.error "inventory record is out of date, please refresh and try again", st)
    else
      (Except.ok (), setAvailable st t inv.hubId inv.skuId delta)

def refUpsertInventory (st : Store) (t : Nat) (updates : List InventoryUpdate) :
    Except String Unit × Store :=
  match applyUpds st t st.inventories updates with
  | Except.error e => (Except.error e, st)
  | Except.ok work => (Except.ok (), { st with inventories := work })

def refRunBatches (t : Nat) : Store → List (List InventoryUpdate) →
    Except String Unit × Store
  | st, [] => (Except.ok (), st)
  | st, b :: rest =>
    match refUpsertInventory st t b with
    | (Except.error e, st1) =>
      (Except.error ("failed to upsert inventory batch: " ++ e), st1)
    | (Except.ok _, st1) => refRunBatches t st1 rest

def refSvcUpsertInventory (st : Store) (t : Nat) (updates : List InventoryUpdate) :
    Except String Unit × Store :=
  if updates.isEmpty then (Except.error "no inventory updates provided", st)
  else
    match validateUpds 0 updates with
    | some e => (Except.error e, st)
    | none => refRunBatches t st (chunks100 updates)

def refSvcGetInventoryItem (st : Store) (t : Nat) (hc sc : String) :
    Except String Inventory :=
  if hc == "" then Except.error "hub code is required"
  else if sc == "" then Except.error "SKU code is required"
  else
    match refGetInventoryItem st t hc sc with
    | Except.error e => Except.error ("failed to get inventory item: " ++ e)
    | Except.ok inv => Except.ok inv

def refSvcReserveInventory (st : Store) (t : Nat) (hc sc : String) (q : Int) :
    Except String Unit × Store :=
  if q ≤ 0 then (Except.error "quantity must be greater than zero", st)
  else
    match refSvcGetInventoryItem st t hc sc with
    | Except.error e => (Except.error ("failed to get inventory: " ++ e), st)
    | Except.ok inv =>
      if inv.available < q then
        (Except.error "insufficient available quantity", st)
      else
        match refUpdateReservedQuantity st t hc sc q with
        | (Except.error e, st1) =>
          (Except.error ("failed to reserve inventory: " ++ e), st1)
        | (Except.ok _, st1) =>
          match refUpdateAvailableQuantity st1 t hc sc (-q) with
          | (Except.error e, st2) =>
            let comp := refUpdateReservedQuantity st2 t hc sc (-q)
            (Except.error ("failed to update available quantity: " ++ e), comp.2)
          | (Except.ok _, st2) => (Except.ok (), st2)

def refSvcReleaseInventory (st : Store) (t : Nat) (hc sc : String) (q : Int) :
    Except String Unit × Store :=
  if q ≤ 0 then (Except.error "quantity must be greater than zero", st)
  else
    match refSvcGetInventoryItem st t hc sc with
    | Except.error e => (Except.error ("failed to get inventory: " ++ e), st)
    | Except.ok inv =>
      if inv.reserved < q then
        (Except.error "insufficient reserved quantity", st)
      else
        match refUpdateReservedQuantity st t hc sc (-q) with
        | (Except.error e, st1) =>
          (Except.error ("failed to release inventory: " ++ e), st1)
        | (Except.ok _, st1) =>
          match refUpdateAvailableQuantity st1 t hc sc q with
          | (Except.error e, st2) =>
            let comp := refUpdateReservedQuantity st2 t hc sc q
            (Except.error ("failed to update available quantity: " ++ e), comp.2)
          | (Except.ok _, st2) => (Except.ok (), st2)

def refSvcFulfillInventory (st : Store) (t : Nat) (hc sc : String) (q : Int) :
    Except String Unit × Store :=
  if q ≤ 0 then (Except.error "quantity must be greater than zero", st)
  else
    match refSvcGetInventoryItem st t hc sc with
    | Except.error e => (Except.error ("failed to get inventory: " ++ e), st)
    | Except.ok inv =>
      if inv.reserved < q then
        (Except.error "insufficient reserved quantity", st)
      else
        match refUpdateReservedQuantity st t hc sc (-q) with
        | (Except.error e, st1) =>
          (Except.error ("failed to update reserved quantity: " ++ e), st1)
        | (Except.ok _, st1) =>
          match refUpsertInventory st1 t
              [{ hubCode := hc, skuCode := sc, quantity := inv.quantity - q }] with
          | (Except.error e, st2) =>
            let comp := refUpdateReservedQuantity st2 t hc sc q
            (Except.error ("failed to update total quantity: " ++ e), comp.2)
          | (Except.ok _, st2) => (Except.ok (), st2)

def refSvcGetInventory (st : Store) (f0 : InventoryFilter) :
    Except String (List InvRow × Int) :=
  let f := normFilter f0
  match dbGetInventory st f with
  | Except.error e => Except.error ("failed to get inventory: " ++ e)
  | Except.ok (rows, total) =>
    if f.skuCodes.isEmpty then Except.ok (rows, total)
    else
      let foundCodes := rows.filterMap (fun r => r.sku.map SKU.code)
      let missing := (codeSet f.skuCodes).filter (fun code => !(foundCodes.contains code))
      Except.ok (rows ++ zeroPad st f.tenantId f missing, total)

/-! ## A failed cache behaves like no cache -/

@[simp] theorem cacheGet_down (k : CacheKey) : cacheGet CacheState.down k = none := rfl

@[simp] theorem cacheSet_down (k : CacheKey) (v : CacheVal) :
    cacheSet CacheState.down k v = CacheState.down := rfl

@[simp] theorem cacheDel_down (k : CacheKey) :
    cacheDel CacheState.down k = CacheState.down := rfl

@[simp] theorem cacheDelTenant_down (t : Nat) :
    cacheDelTenant CacheState.down t = CacheState.down := rfl

@[simp] theorem invalidateCache_down (t : Nat) (hc sc : String) :
    invalidateCache CacheState.down t hc sc = CacheState.down := rfl

theorem dbGetInventoryItem_down (st : Store) (t : Nat) (hc sc : String) :
    dbGetInventoryItem st CacheState.down t hc sc =
      (refGetInventoryItem st t hc sc, CacheState.down) := by
  unfold dbGetInventoryItem refGetInventoryItem
  cases hh : hubGetByCode st t hc with
  | none => rfl
  | some hub =>
    cases hs : skuGetByCode st t sc with
    | none => rfl
    | some sku =>
      cases hi : findInv st t hub.id sku.id with
      | none => simp [hi]
      | some inv => simp [hi]

theorem repoGetInventoryItem_down (st : Store) (t : Nat) (hc sc : String) :
    repoGetInventoryItem st CacheState.down t hc sc =
      (refGetInventoryItem st t hc sc, CacheState.down) := by
  unfold repoGetInventoryItem
  rw [show cacheGet CacheState.down (CacheKey.item t hc sc) = none from rfl]
  exact dbGetInventoryItem_down st t hc sc

theorem repoUpdateReservedQuantity_down (st : Store) (t : Nat) (hc sc : String)
    (delta : Int) :
    repoUpdateReservedQuantity st CacheState.down t hc sc delta =
      ((refUpdateReservedQuantity st t hc sc delta).1,
       (refUpdateReservedQuantity st t hc sc delta).2, CacheState.down) := by
  unfold repoUpdateReservedQuantity refUpdateReservedQuantity
  rw [repoGetInventoryItem_down]
  cases refGetInventoryItem st t hc sc with
  | error e => rfl
  | ok inv =>
    by_cases h : matchCount st t inv.hubId inv.skuId = 0 <;>
      simp [h]

theorem repoUpdateAvailableQuantity_down (st : Store) (t : Nat) (hc sc : String)
    (delta : Int) :
    repoUpdateAvailableQuantity st CacheState.down t hc sc delta =
      ((refUpdateAvailableQuantity st t hc sc delta).1,
       (refUpdateAvailableQuantity st t hc sc delta).2, CacheState.down) := by
  unfold repoUpdateAvailableQuantity refUpdateAvailableQuantity
  rw [repoGetInventoryItem_down]
  cases refGetInventoryItem st t hc sc with
  | error e => rfl
  | ok inv =>
    by_cases h : matchCount st t inv.hubId inv.skuId = 0 <;>
      simp [h]

/-- The repository upsert never touches the item cache: it threads any
cache state through untouched. -/
theorem repoUpsertInventory_cache (st : Store) (c : CacheState) (t : Nat)
    (updates : List InventoryUpdate) :
    repoUpsertInventory st c t updates =
      ((refUpsertInventory st t updates).1,
       (refUpsertInventory st t updates).2, c) := by
  unfold repoUpsertInventory refUpsertInventory
  cases applyUpds st t st.inventories updates with
  | error e => rfl
  | ok work => rfl

theorem runBatches_down (t : Nat) (bs : List (List InventoryUpdate)) (st : Store) :
    runBatches t st CacheState.down bs =
      ((refRunBatches t st bs).1, (refRunBatches t st bs).2, CacheState.down) := by
  induction bs generalizing st with
  | nil => rfl
  | cons b rest ih =>
    unfold runBatches refRunBatches
    rw [repoUpsertInventory_cache]
    rcases hb : refUpsertInventory st t b with ⟨r, s⟩
    cases r with
    | error e => rfl
    | ok u => exact ih s

theorem svcUpsertInventory_down (st : Store) (t : Nat)
    (updates : List InventoryUpdate) :
    svcUpsertInventory st CacheState.down t updates =
      ((refSvcUpsertInventory st t updates).1,
       (refSvcUpsertInventory st t updates).2, CacheState.down) := by
  unfold svcUpsertInventory refSvcUpsertInventory
  by_cases h : updates.isEmpty <;> simp [h]
  cases validateUpds 0 updates with
  | none => simp [runBatches_down]
  | some e => rfl

theorem svcGetInventoryItem_down (st : Store) (t : Nat) (hc sc : String) :
    svcGetInventoryItem st CacheState.down t hc sc =
      (refSvcGetInventoryItem st t hc sc, CacheState.down) := by
  unfold svcGetInventoryItem refSvcGetInventoryItem
  by_cases h1 : hc = "" <;> simp [h1]
  by_cases h2 : sc = "" <;> simp [h2]
  rw [repoGetInventoryItem_down]
  cases refGetInventoryItem st t hc sc with
  | error e => rfl
  | ok inv => rfl

theorem svcReserveInventory_down (st : Store) (t : Nat) (hc sc : String) (q : Int) :
    svcReserveInventory st CacheState.down t hc sc q =
      ((refSvcReserveInventory st t hc sc q).1,
       (refSvcReserveInventory st t hc sc q).2, CacheState.down) := by
  unfold svcReserveInventory refSvcReserveInventory
  by_cases hq : q ≤ 0 <;> simp [hq]
  rw [svcGetInventoryItem_down]
  cases refSvcGetInventoryItem st t hc sc with
  | error e => rfl
  | ok inv =>
    by_cases ha : inv.available < q <;> simp [ha]
    rw [repoUpdateReservedQuantity_down]
    rcases hr : refUpdateReservedQuantity st t hc sc q with ⟨r1, s1⟩
    cases r1 with
    | error e => rfl
    | ok u =>
      simp only [repoUpdateAvailableQuantity_down]
      rcases hav : refUpdateAvailableQuantity s1 t hc sc (-q) with ⟨r2, s2⟩
      cases r2 with
      | error e => simp [repoUpdateReservedQuantity_down]
      | ok u2 => rfl

theorem svcReleaseInventory_down (st : Store) (t : Nat) (hc sc : String) (q : Int) :
    svcReleaseInventory st CacheState.down t hc sc q =
      ((refSvcReleaseInventory st t hc sc q).1,
       (refSvcReleaseInventory st t hc sc q).2, CacheState.down) := by
  unfold svcReleaseInventory refSvcReleaseInventory
  by_cases hq : q ≤ 0 <;> simp [hq]
  rw [svcGetInventoryItem_down]
  cases refSvcGetInventoryItem st t hc sc with
  | error e => rfl
  | ok inv =>
    by_cases ha : inv.reserved < q <;> simp [ha]
    rw [repoUpdateReservedQuantity_down]
    rcases hr : refUpdateReservedQuantity st t hc sc (-q) with ⟨r1, s1⟩
    cases r1 with
    | error e => rfl
    | ok u =>
      simp only [repoUpdateAvailableQuantity_down]
      rcases hav : refUpdateAvailableQuantity s1 t hc sc q with ⟨r2, s2⟩
      cases r2 with
      | error e => simp [repoUpdateReservedQuantity_down]
      | ok u2 => rfl

theorem svcFulfillInventory_down (st : Store) (t : Nat) (hc sc : String) (q : Int) :
    svcFulfillInventory st CacheState.down t hc sc q =
      ((refSvcFulfillInventory st t hc sc q).1,
       (refSvcFulfillInventory st t hc sc q).2, CacheState.down) := by
  unfold svcFulfillInventory refSvcFulfillInventory
  by_cases hq : q ≤ 0 <;> simp [hq]
  rw [svcGetInventoryItem_down]
  cases refSvcGetInventoryItem st t hc sc with
  | error e => rfl
  | ok inv =>
    by_cases ha : inv.reserved < q <;> simp [ha]
    rw [repoUpdateReservedQuantity_down]
    rcases hr : refUpdateReservedQuantity st t hc sc (-q) with ⟨r1, s1⟩
    cases r1 with
    | error e => rfl
    | ok u =>
      simp only [repoUpsertInventory_cache]
      rcases hup : refUpsertInventory s1 t
          [{ hubCode := hc, skuCode := sc, quantity := inv.quantity - q }] with ⟨r2, s2⟩
      cases r2 with
      | error e => simp [repoUpdateReservedQuantity_down]
      | ok u2 => rfl

theorem svcGetInventory_down (st : Store) (f : InventoryFilter) :
    svcGetInventory st CacheState.down f =
      (refSvcGetInventory st f, CacheState.down) := by
  unfold svcGetInventory refSvcGetInventory repoGetInventory
  simp only [cacheGet_down]
  by_cases hu : (normFilter f).hubCode == "" && (normFilter f).sellerId.isNone &&
      (normFilter f).skuCodes.isEmpty <;> simp only [hu]
  · cases hdb : dbGetInventory st (normFilter f) with
    | error e => simp
    | ok p =>
      obtain ⟨rows, total⟩ := p
      simp only
      have hempty : (normFilter f).skuCodes.isEmpty = true := by
        simp only [Bool.and_eq_true] at hu
        exact hu.2
      simp [hempty]
  · cases hdb : dbGetInventory st (normFilter f) with
    | error e => simp
    | ok p =>
      obtain ⟨rows, total⟩ := p
      by_cases hempty : (normFilter f).skuCodes.isEmpty <;> simp [hempty]

/-! ## List and cache lemmas -/

theorem find?_filter_of_imp {α : Type} (l : List α) (p q : α → Bool)
    (hpq : ∀ x, p x = true → q x = true) :
    (l.filter q).find? p = l.find? p := by
  induction l with
  | nil => rfl
  | cons a l ih =>
    by_cases hq : q a = true
    · rw [List.filter_cons_of_pos hq]
      by_cases hp : p a = true
      · rw [List.find?_cons_of_pos _ hp, List.find?_cons_of_pos _ hp]
      · rw [List.find?_cons_of_neg _ (by simp [hp]), List.find?_cons_of_neg _ (by simp [hp]), ih]
    · have hp : ¬ p a = true := fun h => hq (hpq a h)
      rw [List.filter_cons_of_neg (by simp [hq]), List.find?_cons_of_neg _ (by simp [hp]), ih]

theorem cacheGet_set_cases (c : CacheState) (k : CacheKey) (v : CacheVal)
    (k' : CacheKey) (w : CacheVal)
    (h : cacheGet (cacheSet c k v) k' = some w) :
    (k' = k ∧ w = v) ∨ cacheGet c k' = some w := by
  cases c with
  | down => simp [cacheGet, cacheSet] at h
  | up es =>
    simp only [cacheGet, cacheSet] at h ⊢
    by_cases hk : k = k'
    · subst hk
      rw [List.find?_cons_of_pos _ (by simp)] at h
      simp at h
      exact Or.inl ⟨rfl, h.symm⟩
    · rw [List.find?_cons_of_neg _ (by simp [hk])] at h
      rw [find?_filter_of_imp _ _ _ (fun e he => by
        simp at he ⊢
        intro hek
        exact hk (hek ▸ he))] at h
      exact Or.inr h

theorem find?_filter_none {α : Type} (l : List α) (p q : α → Bool)
    (hpq : ∀ x, p x = true → q x = false) :
    (l.filter q).find? p = none := by
  rw [List.find?_eq_none]
  intro a ha hp
  have := List.of_mem_filter ha
  rw [hpq a hp] at this
  exact Bool.false_ne_true this

theorem cacheGet_delTenant_hit (c : CacheState) (t : Nat) (k : CacheKey)
    (h : keyTenant k = t) : cacheGet (cacheDelTenant c t) k = none := by
  cases c with
  | down => rfl
  | up es =>
    simp only [cacheGet, cacheDelTenant]
    rw [find?_filter_none _ _ _ (fun e he => by
      simp at he ⊢
      rw [he, h])]
    rfl

theorem cacheGet_delTenant_ne (c : CacheState) (t : Nat) (k : CacheKey)
    (h : keyTenant k ≠ t) : cacheGet (cacheDelTenant c t) k = cacheGet c k := by
  cases c with
  | down => rfl
  | up es =>
    simp only [cacheGet, cacheDelTenant]
    rw [find?_filter_of_imp _ _ _ (fun e he => by
      simp at he ⊢
      rw [he]
      exact h)]

theorem cacheGet_del_ne (c : CacheState) (k0 k : CacheKey) (h : k ≠ k0) :
    cacheGet (cacheDel c k0) k = cacheGet c k := by
  cases c with
  | down => rfl
  | up es =>
    simp only [cacheGet, cacheDel]
    rw [find?_filter_of_imp _ _ _ (fun e he => by
      simp at he ⊢
      rw [he]
      exact fun hk0 => h hk0)]

theorem cacheGet_invalidate_hit (c : CacheState) (t : Nat) (hc sc : String)
    (k : CacheKey) (h : keyTenant k = t) :
    cacheGet (invalidateCache c t hc sc) k = none := by
  unfold invalidateCache
  exact cacheGet_delTenant_hit _ _ _ h

theorem cacheGet_invalidate_ne (c : CacheState) (t : Nat) (hc sc : String)
    (k : CacheKey) (h : keyTenant k ≠ t) :
    cacheGet (invalidateCache c t hc sc) k = cacheGet c k := by
  unfold invalidateCache
  rw [cacheGet_delTenant_ne _ _ _ h]
  exact cacheGet_del_ne _ _ _ (by
    intro hk
    exact h (by rw [hk]; rfl))

/-! ## Store-mutation lemmas -/

theorem rowKeyed_of_findInv {st : Store} {t h s : Nat} {i : Inventory}
    (hi : findInv st t h s = some i) :
    i.tenantId = t ∧ i.hubId = h ∧ i.skuId = s := by
  have hp := List.find?_some hi
  simp [rowKeyed] at hp
  exact ⟨hp.1.1, hp.1.2, hp.2⟩

theorem matchCount_ne_zero {st : Store} {t h s : Nat} {i : Inventory}
    (hi : findInv st t h s = some i) : matchCount st t h s ≠ 0 := by
  unfold matchCount
  have hmem : i ∈ st.inventories := List.mem_of_find?_eq_some hi
  have hp := List.find?_some hi
  have : i ∈ st.inventories.filter (rowKeyed t h s) := List.mem_filter.2 ⟨hmem, hp⟩
  intro hlen
  rw [List.length_eq_zero] at hlen
  rw [hlen] at this
  exact List.not_mem_nil _ this

/-- `find?` commutes with a `map` that does not disturb the predicate. -/
theorem findInv_map (st : Store) (f : Inventory → Inventory) (t' h' s' : Nat)
    (hf : ∀ i, rowKeyed t' h' s' (f i) = rowKeyed t' h' s' i) :
    findInv { st with inventories := st.inventories.map f } t' h' s' =
      (findInv st t' h' s').map f := by
  unfold findInv
  simp only [List.find?_map]
  rw [show (rowKeyed t' h' s' ∘ f) = rowKeyed t' h' s' from funext hf]

theorem matchCount_map (st : Store) (f : Inventory → Inventory) (t' h' s' : Nat)
    (hf : ∀ i, rowKeyed t' h' s' (f i) = rowKeyed t' h' s' i) :
    matchCount { st with inventories := st.inventories.map f } t' h' s' =
      matchCount st t' h' s' := by
  unfold matchCount
  simp only [List.filter_map, List.length_map]
  rw [show (rowKeyed t' h' s' ∘ f) = rowKeyed t' h' s' from funext hf]

/-- The counter setters never touch a row's key fields. -/
theorem rowKeyed_update_reserved (t h s t' h' s' : Nat) (d : Int) (i : Inventory) :
    rowKeyed t' h' s'
      (if rowKeyed t h s i then { i with reserved := i.reserved + d } else i) =
      rowKeyed t' h' s' i := by
  by_cases hk : rowKeyed t h s i = true
  · rw [if_pos hk]
    rfl
  · rw [if_neg hk]

theorem rowKeyed_update_available (t h s t' h' s' : Nat) (d : Int) (i : Inventory) :
    rowKeyed t' h' s'
      (if rowKeyed t h s i then { i with available := i.available + d } else i) =
      rowKeyed t' h' s' i := by
  by_cases hk : rowKeyed t h s i = true
  · rw [if_pos hk]
    rfl
  · rw [if_neg hk]

theorem rowKeyed_update_quantity (t h s t' h' s' : Nat) (q : Int) (i : Inventory) :
    rowKeyed t' h' s'
      (if rowKeyed t h s i then { i with quantity := q } else i) =
      rowKeyed t' h' s' i := by
  by_cases hk : rowKeyed t h s i = true
  · rw [if_pos hk]
    rfl
  · rw [if_neg hk]

@[simp] theorem setReserved_hubs (st : Store) (t h s : Nat) (d : Int) :
    (setReserved st t h s d).hubs = st.hubs := rfl

@[simp] theorem setReserved_skus (st : Store) (t h s : Nat) (d : Int) :
    (setReserved st t h s d).skus = st.skus := rfl

@[simp] theorem setAvailable_hubs (st : Store) (t h s : Nat) (d : Int) :
    (setAvailable st t h s d).hubs = st.hubs := rfl

@[simp] theorem setAvailable_skus (st : Store) (t h s : Nat) (d : Int) :
    (setAvailable st t h s d).skus = st.skus := rfl

/-- Code resolution only reads the hub table. -/
theorem hubGetByCode_congr {st st' : Store} (h : st'.hubs = st.hubs) (t : Nat)
    (code : String) : hubGetByCode st' t code = hubGetByCode st t code := by
  unfold hubGetByCode
  rw [h]

theorem skuGetByCode_congr {st st' : Store} (h : st'.skus = st.skus) (t : Nat)
    (code : String) : skuGetByCode st' t code = skuGetByCode st t code := by
  unfold skuGetByCode
  rw [h]

theorem findInv_setReserved_self {st : Store} {t h s : Nat} {i : Inventory}
    (hi : findInv st t h s = some i) (d : Int) :
    findInv (setReserved st t h s d) t h s =
      some { i with reserved := i.reserved + d } := by
  unfold setReserved
  rw [findInv_map _ _ _ _ _ (rowKeyed_update_reserved t h s t h s d), hi]
  have hp := List.find?_some hi
  simp [hp]

theorem findInv_setAvailable_self {st : Store} {t h s : Nat} {i : Inventory}
    (hi : findInv st t h s = some i) (d : Int) :
    findInv (setAvailable st t h s d) t h s =
      some { i with available := i.available + d } := by
  unfold setAvailable
  rw [findInv_map _ _ _ _ _ (rowKeyed_update_available t h s t h s d), hi]
  have hp := List.find?_some hi
  simp [hp]

theorem findInv_setReserved_ne (st : Store) (t h s : Nat) (d : Int)
    (t' h' s' : Nat) (ht : t' ≠ t) :
    findInv (setReserved st t h s d) t' h' s' = findInv st t' h' s' := by
  unfold setReserved
  rw [findInv_map _ _ _ _ _ (rowKeyed_update_reserved t h s t' h' s' d)]
  cases hi : findInv st t' h' s' with
  | none => rfl
  | some i =>
    obtain ⟨hit, _, _⟩ := rowKeyed_of_findInv hi
    have : rowKeyed t h s i = false := by
      simp [rowKeyed, hit, ht]
    simp [this]

theorem findInv_setAvailable_ne (st : Store) (t h s : Nat) (d : Int)
    (t' h' s' : Nat) (ht : t' ≠ t) :
    findInv (setAvailable st t h s d) t' h' s' = findInv st t' h' s' := by
  unfold setAvailable
  rw [findInv_map _ _ _ _ _ (rowKeyed_update_available t h s t' h' s' d)]
  cases hi : findInv st t' h' s' with
  | none => rfl
  | some i =>
    obtain ⟨hit, _, _⟩ := rowKeyed_of_findInv hi
    have : rowKeyed t h s i = false := by
      simp [rowKeyed, hit, ht]
    simp [this]

/-! ## Cache coherence

An item-cache entry is coherent when it is exactly the row the database
read for its key would return.  Entries are created only from freshly read
rows, so a quiescent cache is coherent; a coherent cache makes the
cache-first read agree with the database read. -/

def ItemCoh (c : CacheState) (st : Store) : Prop :=
  ∀ t hc sc i, cacheGet c (CacheKey.item t hc sc) = some (CacheVal.invVal i) →
    ∃ hub sku, hubGetByCode st t hc = some hub ∧ skuGetByCode st t sc = some sku ∧
      findInv st t hub.id sku.id = some i

theorem itemCoh_down (st : Store) : ItemCoh CacheState.down st := by
  intro t hc sc i h
  simp [cacheGet] at h

theorem itemCoh_empty (st : Store) : ItemCoh (CacheState.up []) st := by
  intro t hc sc i h
  simp [cacheGet] at h

theorem itemCoh_set {c : CacheState} {st : Store} {t : Nat} {hc sc : String}
    {hub : Hub} {sku : SKU} {inv : Inventory} (hcoh : ItemCoh c st)
    (hh : hubGetByCode st t hc = some hub) (hs : skuGetByCode st t sc = some sku)
    (hi : findInv st t hub.id sku.id = some inv) :
    ItemCoh (cacheSet c (CacheKey.item t hc sc) (CacheVal.invVal inv)) st := by
  intro t' hc' sc' i' hget
  rcases cacheGet_set_cases _ _ _ _ _ hget with ⟨hk, hv⟩ | hold
  · injection hk with h1 h2 h3
    subst h1
    subst h2
    subst h3
    injection hv with h4
    subst h4
    exact ⟨hub, sku, hh, hs, hi⟩
  · exact hcoh _ _ _ _ hold

/-- Invalidation restores coherence for a store whose hub/SKU tables are
unchanged and whose rows changed only within the invalidated tenant. -/
theorem itemCoh_invalidate {c : CacheState} {st : Store} (st' : Store) (t : Nat)
    (hc sc : String) (hcoh : ItemCoh c st)
    (hhubs : st'.hubs = st.hubs) (hskus : st'.skus = st.skus)
    (hrows : ∀ t' h' s', t' ≠ t → findInv st' t' h' s' = findInv st t' h' s') :
    ItemCoh (invalidateCache c t hc sc) st' := by
  intro t' hc' sc' i hget
  by_cases ht : t' = t
  · subst ht
    rw [cacheGet_invalidate_hit c t' hc sc (CacheKey.item t' hc' sc') rfl] at hget
    cases hget
  · rw [cacheGet_invalidate_ne _ _ _ _ _ (by simpa [keyTenant] using ht)] at hget
    obtain ⟨hub, sku, hh, hs, hi⟩ := hcoh _ _ _ _ hget
    refine ⟨hub, sku, ?_, ?_, ?_⟩
    · rw [hubGetByCode_congr hhubs, hh]
    · rw [skuGetByCode_congr hskus, hs]
    · rw [hrows _ _ _ ht, hi]

theorem refGetInventoryItem_of {st : Store} {t : Nat} {hc sc : String}
    {hub : Hub} {sku : SKU} {inv : Inventory}
    (hh : hubGetByCode st t hc = some hub) (hs : skuGetByCode st t sc = some sku)
    (hi : findInv st t hub.id sku.id = some inv) :
    refGetInventoryItem st t hc sc = Except.ok inv := by
  unfold refGetInventoryItem
  rw [hh]
  simp only [hs, hi]

theorem refGetInventoryItem_zero {st : Store} {t : Nat} {hc sc : String}
    {hub : Hub} {sku : SKU}
    (hh : hubGetByCode st t hc = some hub) (hs : skuGetByCode st t sc = some sku)
    (hi : findInv st t hub.id sku.id = none) :
    refGetInventoryItem st t hc sc = Except.ok (zeroInv t hub.id sku.id) := by
  unfold refGetInventoryItem
  rw [hh]
  simp only [hs, hi]

theorem dbGetInventoryItem_fst (st : Store) (c : CacheState) (t : Nat)
    (hc sc : String) :
    (dbGetInventoryItem st c t hc sc).1 = refGetInventoryItem st t hc sc := by
  unfold dbGetInventoryItem refGetInventoryItem
  cases hh : hubGetByCode st t hc with
  | none => rfl
  | some hub =>
    cases hs : skuGetByCode st t sc with
    | none => rfl
    | some sku =>
      cases hi : findInv st t hub.id sku.id with
      | none => simp [hi]
      | some inv => simp [hi]

theorem dbGetInventoryItem_coh {c : CacheState} {st : Store} (hcoh : ItemCoh c st)
    (t : Nat) (hc sc : String) :
    ItemCoh (dbGetInventoryItem st c t hc sc).2 st := by
  unfold dbGetInventoryItem
  cases hh : hubGetByCode st t hc with
  | none => exact hcoh
  | some hub =>
    cases hs : skuGetByCode st t sc with
    | none => simp only []; exact hcoh
    | some sku =>
      cases hi : findInv st t hub.id sku.id with
      | none => simp only [hi]; exact hcoh
      | some inv =>
        simp only [hi]
        exact itemCoh_set hcoh hh hs hi

theorem repoGetInventoryItem_fst {c : CacheState} {st : Store} (hcoh : ItemCoh c st)
    (t : Nat) (hc sc : String) :
    (repoGetInventoryItem st c t hc sc).1 = refGetInventoryItem st t hc sc := by
  unfold repoGetInventoryItem
  cases hcg : cacheGet c (CacheKey.item t hc sc) with
  | none => exact dbGetInventoryItem_fst st c t hc sc
  | some v =>
    cases v with
    | invVal i =>
      obtain ⟨hub, sku, hh, hs, hi⟩ := hcoh _ _ _ _ hcg
      rw [refGetInventoryItem_of hh hs hi]
    | rowsVal v => exact dbGetInventoryItem_fst st c t hc sc
    | countVal v => exact dbGetInventoryItem_fst st c t hc sc

theorem repoGetInventoryItem_coh {c : CacheState} {st : Store} (hcoh : ItemCoh c st)
    (t : Nat) (hc sc : String) :
    ItemCoh (repoGetInventoryItem st c t hc sc).2 st := by
  unfold repoGetInventoryItem
  cases hcg : cacheGet c (CacheKey.item t hc sc) with
  | none => exact dbGetInventoryItem_coh hcoh t hc sc
  | some v =>
    cases v with
    | invVal i => exact hcoh
    | rowsVal v => exact dbGetInventoryItem_coh hcoh t hc sc
    | countVal v => exact dbGetInventoryItem_coh hcoh t hc sc

/-! ## Operation specifications under a coherent cache -/

theorem svcGetInventoryItem_spec {c : CacheState} {st : Store} (hcoh : ItemCoh c st)
    {t : Nat} {hc sc : String} (h1 : hc ≠ "") (h2 : sc ≠ "") :
    (svcGetInventoryItem st c t hc sc).1 = refSvcGetInventoryItem st t hc sc ∧
    ItemCoh (svcGetInventoryItem st c t hc sc).2 st := by
  have hfst := repoGetInventoryItem_fst hcoh t hc sc
  have hsnd := repoGetInventoryItem_coh hcoh t hc sc
  unfold svcGetInventoryItem refSvcGetInventoryItem
  rw [if_neg (by simp [h1]), if_neg (by simp [h2]), if_neg (by simp [h1]),
    if_neg (by simp [h2])]
  rcases hrep : repoGetInventoryItem st c t hc sc with ⟨r, c1⟩
  rw [hrep] at hfst hsnd
  simp only at hfst hsnd
  rw [← hfst]
  cases r with
  | error e => exact ⟨rfl, hsnd⟩
  | ok inv => exact ⟨rfl, hsnd⟩

theorem repoUpdateReservedQuantity_spec {c : CacheState} {st : Store}
    (hcoh : ItemCoh c st) {t : Nat} {hc sc : String} {hub : Hub} {sku : SKU}
    {inv : Inventory} (hh : hubGetByCode st t hc = some hub)
    (hs : skuGetByCode st t sc = some sku)
    (hi : findInv st t hub.id sku.id = some inv) (d : Int) :
    (repoUpdateReservedQuantity st c t hc sc d).1 = Except.ok () ∧
    (repoUpdateReservedQuantity st c t hc sc d).2.1 =
      setReserved st t hub.id sku.id d ∧
    ItemCoh (repoUpdateReservedQuantity st c t hc sc d).2.2
      (setReserved st t hub.id sku.id d) := by
  obtain ⟨hit, hih, his⟩ := rowKeyed_of_findInv hi
  have hfst := repoGetInventoryItem_fst hcoh t hc sc
  have hsnd := repoGetInventoryItem_coh hcoh t hc sc
  rw [refGetInventoryItem_of hh hs hi] at hfst
  unfold repoUpdateReservedQuantity
  rcases hrep : repoGetInventoryItem st c t hc sc with ⟨r, c1⟩
  rw [hrep] at hfst hsnd
  simp only at hfst hsnd
  subst hfst
  have hmc : ¬ (matchCount st t inv.hubId inv.skuId == 0) = true := by
    rw [hih, his]
    simp [matchCount_ne_zero hi]
  simp only []
  rw [if_neg hmc]
  refine ⟨rfl, by rw [hih, his], ?_⟩
  rw [hih, his]
  exact itemCoh_invalidate (setReserved st t hub.id sku.id d) t hc sc hsnd rfl rfl
    (fun t' h' s' ht => findInv_setReserved_ne st t hub.id sku.id d t' h' s' ht)

theorem repoUpdateAvailableQuantity_spec {c : CacheState} {st : Store}
    (hcoh : ItemCoh c st) {t : Nat} {hc sc : String} {hub : Hub} {sku : SKU}
    {inv : Inventory} (hh : hubGetByCode st t hc = some hub)
    (hs : skuGetByCode st t sc = some sku)
    (hi : findInv st t hub.id sku.id = some inv) (d : Int) :
    (repoUpdateAvailableQuantity st c t hc sc d).1 = Except.ok () ∧
    (repoUpdateAvailableQuantity st c t hc sc d).2.1 =
      setAvailable st t hub.id sku.id d ∧
    ItemCoh (repoUpdateAvailableQuantity st c t hc sc d).2.2
      (setAvailable st t hub.id sku.id d) := by
  obtain ⟨hit, hih, his⟩ := rowKeyed_of_findInv hi
  have hfst := repoGetInventoryItem_fst hcoh t hc sc
  have hsnd := repoGetInventoryItem_coh hcoh t hc sc
  rw [refGetInventoryItem_of hh hs hi] at hfst
  unfold repoUpdateAvailableQuantity
  rcases hrep : repoGetInventoryItem st c t hc sc with ⟨r, c1⟩
  rw [hrep] at hfst hsnd
  simp only at hfst hsnd
  subst hfst
  have hmc : ¬ (matchCount st t inv.hubId inv.skuId == 0) = true := by
    rw [hih, his]
    simp [matchCount_ne_zero hi]
  simp only []
  rw [if_neg hmc]
  refine ⟨rfl, by rw [hih, his], ?_⟩
  rw [hih, his]
  exact itemCoh_invalidate (setAvailable st t hub.id sku.id d) t hc sc hsnd rfl rfl
    (fun t' h' s' ht => findInv_setAvailable_ne st t hub.id sku.id d t' h' s' ht)

/-- `UPDATE .. SET quantity = ?` on the keyed rows (the shape of the
transaction's conditional update). -/
def setQuantity (st : Store) (t h s : Nat) (q : Int) : Store :=
  { st with inventories := st.inventories.map (fun i =>
      if rowKeyed t h s i then { i with quantity := q } else i) }

@[simp] theorem setQuantity_hubs (st : Store) (t h s : Nat) (q : Int) :
    (setQuantity st t h s q).hubs = st.hubs := rfl

@[simp] theorem setQuantity_skus (st : Store) (t h s : Nat) (q : Int) :
    (setQuantity st t h s q).skus = st.skus := rfl

theorem findInv_setQuantity_self {st : Store} {t h s : Nat} {i : Inventory}
    (hi : findInv st t h s = some i) (q : Int) :
    findInv (setQuantity st t h s q) t h s = some { i with quantity := q } := by
  unfold setQuantity
  rw [findInv_map _ _ _ _ _ (rowKeyed_update_quantity t h s t h s q), hi]
  have hp := List.find?_some hi
  simp [hp]

theorem findInv_setQuantity_ne (st : Store) (t h s : Nat) (q : Int)
    (t' h' s' : Nat) (ht : t' ≠ t) :
    findInv (setQuantity st t h s q) t' h' s' = findInv st t' h' s' := by
  unfold setQuantity
  rw [findInv_map _ _ _ _ _ (rowKeyed_update_quantity t h s t' h' s' q)]
  cases hi : findInv st t' h' s' with
  | none => rfl
  | some i =>
    obtain ⟨hit, _, _⟩ := rowKeyed_of_findInv hi
    have : rowKeyed t h s i = false := by
      simp [rowKeyed, hit, ht]
    simp [this]

/-- A single-update repository upsert against an existing row rewrites
only that row's `quantity`. -/
theorem repoUpsertInventory_single_existing {st : Store} (c : CacheState) {t : Nat}
    {u : InventoryUpdate} {hub : Hub} {sku : SKU}
    (hh : hubGetByCode st t u.hubCode = some hub)
    (hs : skuGetByCode st t u.skuCode = some sku)
    (hn : matchCount st t hub.id sku.id ≠ 0) :
    repoUpsertInventory st c t [u] =
      (Except.ok (), setQuantity st t hub.id sku.id u.quantity, c) := by
  have hn' : ((st.inventories.filter (rowKeyed t hub.id sku.id)).length == 0) = false := by
    simpa [matchCount] using hn
  simp only [repoUpsertInventory, applyUpds, applyUpd, hh, hs, hn',
    Bool.false_eq_true, if_false, setQuantity]

/-- A single-update repository upsert with no matching row inserts a fresh
record with zero flow counters. -/
theorem repoUpsertInventory_single_new {st : Store} (c : CacheState) {t : Nat}
    {u : InventoryUpdate} {hub : Hub} {sku : SKU}
    (hh : hubGetByCode st t u.hubCode = some hub)
    (hs : skuGetByCode st t u.skuCode = some sku)
    (hn : matchCount st t hub.id sku.id = 0) :
    repoUpsertInventory st c t [u] =
      (Except.ok (),
       { st with inventories := st.inventories ++
           [{ tenantId := t, hubId := hub.id, skuId := sku.id,
              quantity := u.quantity, available := 0, reserved := 0,
              inTransit := 0 }] }, c) := by
  have hfil : st.inventories.filter (rowKeyed t hub.id sku.id) = [] := by
    rw [← List.length_eq_zero]
    simpa [matchCount] using hn
  have hall : ∀ i ∈ st.inventories, rowKeyed t hub.id sku.id i = false := by
    intro i hi
    by_contra hcon
    have : i ∈ st.inventories.filter (rowKeyed t hub.id sku.id) :=
      List.mem_filter.2 ⟨hi, by revert hcon; cases rowKeyed t hub.id sku.id i <;> simp⟩
    rw [hfil] at this
    exact List.not_mem_nil _ this
  have hmap : st.inventories.map (fun i =>
      if rowKeyed t hub.id sku.id i then { i with quantity := u.quantity } else i) =
      st.inventories := by
    have hcg : st.inventories.map (fun i =>
        if rowKeyed t hub.id sku.id i then { i with quantity := u.quantity } else i) =
        st.inventories.map id :=
      List.map_congr_left (fun i hi => by
        rw [if_neg (by simp [hall i hi])]
        rfl)
    rw [hcg, List.map_id]
  have hn' : ((st.inventories.filter (rowKeyed t hub.id sku.id)).length == 0) = true := by
    rw [hfil]
    rfl
  simp only [repoUpsertInventory, applyUpds, applyUpd, hh, hs, hn', if_true, hmap]

theorem refSvcGetInventoryItem_of {st : Store} {t : Nat} {hc sc : String}
    {hub : Hub} {sku : SKU} {inv : Inventory} (h1 : hc ≠ "") (h2 : sc ≠ "")
    (hh : hubGetByCode st t hc = some hub) (hs : skuGetByCode st t sc = some sku)
    (hi : findInv st t hub.id sku.id = some inv) :
    refSvcGetInventoryItem st t hc sc = Except.ok inv := by
  unfold refSvcGetInventoryItem
  rw [if_neg (by simp [h1]), if_neg (by simp [h2]), refGetInventoryItem_of hh hs hi]

/-- A successful `ReserveInventory` under a coherent cache: validates,
reads the row, then applies `reserved += q` and `available -= q`. -/
theorem svcReserveInventory_spec {c : CacheState} {st : Store} (hcoh : ItemCoh c st)
    {t : Nat} {hc sc : String} (h1 : hc ≠ "") (h2 : sc ≠ "")
    {hub : Hub} {sku : SKU} {inv : Inventory}
    (hh : hubGetByCode st t hc = some hub) (hs : skuGetByCode st t sc = some sku)
    (hi : findInv st t hub.id sku.id = some inv) {q : Int}
    (hq : 0 < q) (hav : q ≤ inv.available) :
    (svcReserveInventory st c t hc sc q).1 = Except.ok () ∧
    (svcReserveInventory st c t hc sc q).2.1 =
      setAvailable (setReserved st t hub.id sku.id q) t hub.id sku.id (-q) ∧
    ItemCoh (svcReserveInventory st c t hc sc q).2.2
      (setAvailable (setReserved st t hub.id sku.id q) t hub.id sku.id (-q)) := by
  unfold svcReserveInventory
  rw [if_neg (by omega : ¬ q ≤ 0)]
  obtain ⟨hgf, hgc⟩ := svcGetInventoryItem_spec hcoh h1 h2 (t := t)
  rcases hg : svcGetInventoryItem st c t hc sc with ⟨r, c1⟩
  rw [hg] at hgf hgc
  simp only at hgf hgc
  rw [refSvcGetInventoryItem_of h1 h2 hh hs hi] at hgf
  subst hgf
  simp only []
  rw [if_neg (by omega : ¬ inv.available < q)]
  obtain ⟨hr1, hr2, hr3⟩ := repoUpdateReservedQuantity_spec hgc hh hs hi q
  rcases hu1 : repoUpdateReservedQuantity st c1 t hc sc q with ⟨r1, st1, c2⟩
  rw [hu1] at hr1 hr2 hr3
  simp only at hr1 hr2 hr3
  subst hr1
  subst hr2
  simp only []
  have hh1 : hubGetByCode (setReserved st t hub.id sku.id q) t hc = some hub :=
    (hubGetByCode_congr (setReserved_hubs st t hub.id sku.id q) t hc).trans hh
  have hs1 : skuGetByCode (setReserved st t hub.id sku.id q) t sc = some sku :=
    (skuGetByCode_congr (setReserved_skus st t hub.id sku.id q) t sc).trans hs
  have hi1 := findInv_setReserved_self hi q
  obtain ⟨ha1, ha2, ha3⟩ := repoUpdateAvailableQuantity_spec hr3 hh1 hs1 hi1 (-q)
  rcases hu2 : repoUpdateAvailableQuantity (setReserved st t hub.id sku.id q) c2
      t hc sc (-q) with ⟨r2, st2, c3⟩
  rw [hu2] at ha1 ha2 ha3
  simp only at ha1 ha2 ha3
  subst ha1
  subst ha2
  exact ⟨rfl, rfl, ha3⟩

/-- A successful `ReleaseInventory` under a coherent cache: the inverse
transition `reserved -= q; available += q`. -/
theorem svcReleaseInventory_spec {c : CacheState} {st : Store} (hcoh : ItemCoh c st)
    {t : Nat} {hc sc : String} (h1 : hc ≠ "") (h2 : sc ≠ "")
    {hub : Hub} {sku : SKU} {inv : Inventory}
    (hh : hubGetByCode st t hc = some hub) (hs : skuGetByCode st t sc = some sku)
    (hi : findInv st t hub.id sku.id = some inv) {q : Int}
    (hq : 0 < q) (hrv : q ≤ inv.reserved) :
    (svcReleaseInventory st c t hc sc q).1 = Except.ok () ∧
    (svcReleaseInventory st c t hc sc q).2.1 =
      setAvailable (setReserved st t hub.id sku.id (-q)) t hub.id sku.id q ∧
    ItemCoh (svcReleaseInventory st c t hc sc q).2.2
      (setAvailable (setReserved st t hub.id sku.id (-q)) t hub.id sku.id q) := by
  unfold svcReleaseInventory
  rw [if_neg (by omega : ¬ q ≤ 0)]
  obtain ⟨hgf, hgc⟩ := svcGetInventoryItem_spec hcoh h1 h2 (t := t)
  rcases hg : svcGetInventoryItem st c t hc sc with ⟨r, c1⟩
  rw [hg] at hgf hgc
  simp only at hgf hgc
  rw [refSvcGetInventoryItem_of h1 h2 hh hs hi] at hgf
  subst hgf
  simp only []
  rw [if_neg (by omega : ¬ inv.reserved < q)]
  obtain ⟨hr1, hr2, hr3⟩ := repoUpdateReservedQuantity_spec hgc hh hs hi (-q)
  rcases hu1 : repoUpdateReservedQuantity st c1 t hc sc (-q) with ⟨r1, st1, c2⟩
  rw [hu1] at hr1 hr2 hr3
  simp only at hr1 hr2 hr3
  subst hr1
  subst hr2
  simp only []
  have hh1 : hubGetByCode (setReserved st t hub.id sku.id (-q)) t hc = some hub :=
    (hubGetByCode_congr (setReserved_hubs st t hub.id sku.id (-q)) t hc).trans hh
  have hs1 : skuGetByCode (setReserved st t hub.id sku.id (-q)) t sc = some sku :=
    (skuGetByCode_congr (setReserved_skus st t hub.id sku.id (-q)) t sc).trans hs
  have hi1 := findInv_setReserved_self hi (-q)
  obtain ⟨ha1, ha2, ha3⟩ := repoUpdateAvailableQuantity_spec hr3 hh1 hs1 hi1 q
  rcases hu2 : repoUpdateAvailableQuantity (setReserved st t hub.id sku.id (-q)) c2
      t hc sc q with ⟨r2, st2, c3⟩
  rw [hu2] at ha1 ha2 ha3
  simp only at ha1 ha2 ha3
  subst ha1
  subst ha2
  exact ⟨rfl, rfl, ha3⟩

/-- A successful `FulfillInventory` under a coherent cache:
`reserved -= q`, then `quantity` is rewritten to the read quantity minus
`q` through the repository upsert. -/
theorem svcFulfillInventory_spec {c : CacheState} {st : Store} (hcoh : ItemCoh c st)
    {t : Nat} {hc sc : String} (h1 : hc ≠ "") (h2 : sc ≠ "")
    {hub : Hub} {sku : SKU} {inv : Inventory}
    (hh : hubGetByCode st t hc = some hub) (hs : skuGetByCode st t sc = some sku)
    (hi : findInv st t hub.id sku.id = some inv) {q : Int}
    (hq : 0 < q) (hrv : q ≤ inv.reserved) :
    (svcFulfillInventory st c t hc sc q).1 = Except.ok () ∧
    (svcFulfillInventory st c t hc sc q).2.1 =
      setQuantity (setReserved st t hub.id sku.id (-q)) t hub.id sku.id
        (inv.quantity - q) := by
  unfold svcFulfillInventory
  rw [if_neg (by omega : ¬ q ≤ 0)]
  obtain ⟨hgf, hgc⟩ := svcGetInventoryItem_spec hcoh h1 h2 (t := t)
  rcases hg : svcGetInventoryItem st c t hc sc with ⟨r, c1⟩
  rw [hg] at hgf hgc
  simp only at hgf hgc
  rw [refSvcGetInventoryItem_of h1 h2 hh hs hi] at hgf
  subst hgf
  simp only []
  rw [if_neg (by omega : ¬ inv.reserved < q)]
  obtain ⟨hr1, hr2, hr3⟩ := repoUpdateReservedQuantity_spec hgc hh hs hi (-q)
  rcases hu1 : repoUpdateReservedQuantity st c1 t hc sc (-q) with ⟨r1, st1, c2⟩
  rw [hu1] at hr1 hr2 hr3
  simp only at hr1 hr2 hr3
  subst hr1
  subst hr2
  simp only []
  have hh1 : hubGetByCode (setReserved st t hub.id sku.id (-q)) t hc = some hub :=
    (hubGetByCode_congr (setReserved_hubs st t hub.id sku.id (-q)) t hc).trans hh
  have hs1 : skuGetByCode (setReserved st t hub.id sku.id (-q)) t sc = some sku :=
    (skuGetByCode_congr (setReserved_skus st t hub.id sku.id (-q)) t sc).trans hs
  have hi1 := findInv_setReserved_self hi (-q)
  have hmc1 : matchCount (setReserved st t hub.id sku.id (-q)) t hub.id sku.id ≠ 0 :=
    matchCount_ne_zero hi1
  have hup := repoUpsertInventory_single_existing c2
    (u := { hubCode := hc, skuCode := sc, quantity := inv.quantity - q })
    hh1 hs1 hmc1
  rw [hup]
  exact ⟨rfl, rfl⟩

/-! ## Success inversion: what a successful transition implies -/

theorem refGetInventoryItem_hub_none {st : Store} {t : Nat} {hc : String}
    (hh : hubGetByCode st t hc = none) (sc : String) :
    refGetInventoryItem st t hc sc =
      Except.error ("failed to get hub: hub not found with code: " ++ hc) := by
  unfold refGetInventoryItem
  rw [hh]

theorem refGetInventoryItem_sku_none {st : Store} {t : Nat} {hc sc : String}
    {hub : Hub} (hh : hubGetByCode st t hc = some hub)
    (hs : skuGetByCode st t sc = none) :
    refGetInventoryItem st t hc sc =
      Except.error ("failed to get SKU: SKU not found with code: " ++ sc) := by
  unfold refGetInventoryItem
  rw [hh]
  simp only [hs]

theorem svcGetInventoryItem_blank_hub {st : Store} (c : CacheState) (t : Nat)
    (sc : String) :
    svcGetInventoryItem st c t "" sc = (Except.error "hub code is required", c) := by
  unfold svcGetInventoryItem
  rw [if_pos (by decide)]

theorem svcGetInventoryItem_blank_sku {st : Store} (c : CacheState) (t : Nat)
    {hc : String} (h1 : hc ≠ "") :
    svcGetInventoryItem st c t hc "" =
      (Except.error "SKU code is required", c) := by
  unfold svcGetInventoryItem
  rw [if_neg (by simp [h1]), if_pos (by decide)]

/-- Inversion for `ReserveInventory`: success pins down every guard and
the resulting store. -/
theorem svcReserveInventory_ok_cases {c : CacheState} {st : Store} {t : Nat}
    {hc sc : String} {q : Int} (hcoh : ItemCoh c st)
    (hsucc : (svcReserveInventory st c t hc sc q).1 = Except.ok ()) :
    ∃ hub sku inv, hc ≠ "" ∧ sc ≠ "" ∧
      hubGetByCode st t hc = some hub ∧ skuGetByCode st t sc = some sku ∧
      findInv st t hub.id sku.id = some inv ∧ 0 < q ∧ q ≤ inv.available ∧
      (svcReserveInventory st c t hc sc q).2.1 =
        setAvailable (setReserved st t hub.id sku.id q) t hub.id sku.id (-q) := by
  by_cases hq : q ≤ 0
  · rw [show svcReserveInventory st c t hc sc q =
        (Except.error "quantity must be greater than zero", st, c) by
      unfold svcReserveInventory; rw [if_pos hq]] at hsucc
    cases hsucc
  by_cases h1 : hc = ""
  · subst h1
    rw [show (svcReserveInventory st c t "" sc q).1 =
        Except.error ("failed to get inventory: " ++ "hub code is required") by
      unfold svcReserveInventory
      rw [if_neg hq, svcGetInventoryItem_blank_hub]] at hsucc
    cases hsucc
  by_cases h2 : sc = ""
  · subst h2
    rw [show (svcReserveInventory st c t hc "" q).1 =
        Except.error ("failed to get inventory: " ++ "SKU code is required") by
      unfold svcReserveInventory
      rw [if_neg hq, svcGetInventoryItem_blank_sku c t h1]] at hsucc
    cases hsucc
  obtain ⟨hgf, hgc⟩ := svcGetInventoryItem_spec hcoh h1 h2 (t := t)
  cases hhub : hubGetByCode st t hc with
  | none =>
    have hr : (svcGetInventoryItem st c t hc sc).1 =
        Except.error ("failed to get inventory item: " ++
          ("failed to get hub: hub not found with code: " ++ hc)) := by
      rw [hgf]
      unfold refSvcGetInventoryItem
      rw [if_neg (by simp [h1]), if_neg (by simp [h2]),
        refGetInventoryItem_hub_none hhub]
    rw [show (svcReserveInventory st c t hc sc q).1 =
        Except.error ("failed to get inventory: " ++
          ("failed to get inventory item: " ++
            ("failed to get hub: hub not found with code: " ++ hc))) by
      unfold svcReserveInventory
      rw [if_neg hq]
      rcases hg : svcGetInventoryItem st c t hc sc with ⟨r, c1⟩
      rw [hg] at hr
      simp only at hr
      subst hr
      rfl] at hsucc
    cases hsucc
  | some hub =>
    cases hsku : skuGetByCode st t sc with
    | none =>
      have hr : (svcGetInventoryItem st c t hc sc).1 =
          Except.error ("failed to get inventory item: " ++
            ("failed to get SKU: SKU not found with code: " ++ sc)) := by
        rw [hgf]
        unfold refSvcGetInventoryItem
        rw [if_neg (by simp [h1]), if_neg (by simp [h2]),
          refGetInventoryItem_sku_none hhub hsku]
      rw [show (svcReserveInventory st c t hc sc q).1 =
          Except.error ("failed to get inventory: " ++
            ("failed to get inventory item: " ++
              ("failed to get SKU: SKU not found with code: " ++ sc))) by
        unfold svcReserveInventory
        rw [if_neg hq]
        rcases hg : svcGetInventoryItem st c t hc sc with ⟨r, c1⟩
        rw [hg] at hr
        simp only at hr
        subst hr
        rfl] at hsucc
      cases hsucc
    | some sku =>
      cases hrow : findInv st t hub.id sku.id with
      | none =>
        have hr : (svcGetInventoryItem st c t hc sc).1 =
            Except.ok (zeroInv t hub.id sku.id) := by
          rw [hgf]
          unfold refSvcGetInventoryItem
          rw [if_neg (by simp [h1]), if_neg (by simp [h2]),
            refGetInventoryItem_zero hhub hsku hrow]
        rw [show (svcReserveInventory st c t hc sc q).1 =
            Except.error "insufficient available quantity" by
          unfold svcReserveInventory
          rw [if_neg hq]
          rcases hg : svcGetInventoryItem st c t hc sc with ⟨r, c1⟩
          rw [hg] at hr
          simp only at hr
          subst hr
          simp only []
          rw [if_pos (by unfold zeroInv; simp; omega)]] at hsucc
        cases hsucc
      | some inv =>
        by_cases hav : inv.available < q
        · have hr : (svcGetInventoryItem st c t hc sc).1 = Except.ok inv := by
            rw [hgf, refSvcGetInventoryItem_of h1 h2 hhub hsku hrow]
          rw [show (svcReserveInventory st c t hc sc q).1 =
              Except.error "insufficient available quantity" by
            unfold svcReserveInventory
            rw [if_neg hq]
            rcases hg : svcGetInventoryItem st c t hc sc with ⟨r, c1⟩
            rw [hg] at hr
            simp only at hr
            subst hr
            simp only []
            rw [if_pos hav]] at hsucc
          cases hsucc
        · obtain ⟨hs1, hs2, _⟩ := svcReserveInventory_spec hcoh h1 h2 hhub hsku hrow
            (by omega : (0 : Int) < q) (by omega : q ≤ inv.available)
          exact ⟨hub, sku, inv, h1, h2, rfl, rfl, hrow, by omega, by omega, hs2⟩

/-- Inversion for `ReleaseInventory`. -/
theorem svcReleaseInventory_ok_cases {c : CacheState} {st : Store} {t : Nat}
    {hc sc : String} {q : Int} (hcoh : ItemCoh c st)
    (hsucc : (svcReleaseInventory st c t hc sc q).1 = Except.ok ()) :
    ∃ hub sku inv, hc ≠ "" ∧ sc ≠ "" ∧
      hubGetByCode st t hc = some hub ∧ skuGetByCode st t sc = some sku ∧
      findInv st t hub.id sku.id = some inv ∧ 0 < q ∧ q ≤ inv.reserved ∧
      (svcReleaseInventory st c t hc sc q).2.1 =
        setAvailable (setReserved st t hub.id sku.id (-q)) t hub.id sku.id q := by
  by_cases hq : q ≤ 0
  · rw [show svcReleaseInventory st c t hc sc q =
        (Except.error "quantity must be greater than zero", st, c) by
      unfold svcReleaseInventory; rw [if_pos hq]] at hsucc
    cases hsucc
  by_cases h1 : hc = ""
  · subst h1
    rw [show (svcReleaseInventory st c t "" sc q).1 =
        Except.error ("failed to get inventory: " ++ "hub code is required") by
      unfold svcReleaseInventory
      rw [if_neg hq, svcGetInventoryItem_blank_hub]] at hsucc
    cases hsucc
  by_cases h2 : sc = ""
  · subst h2
    rw [show (svcReleaseInventory st c t hc "" q).1 =
        Except.error ("failed to get inventory: " ++ "SKU code is required") by
      unfold svcReleaseInventory
      rw [if_neg hq, svcGetInventoryItem_blank_sku c t h1]] at hsucc
    cases hsucc
  obtain ⟨hgf, hgc⟩ := svcGetInventoryItem_spec hcoh h1 h2 (t := t)
  cases hhub : hubGetByCode st t hc with
  | none =>
    have hr : (svcGetInventoryItem st c t hc sc).1 =
        Except.error ("failed to get inventory item: " ++
          ("failed to get hub: hub not found with code: " ++ hc)) := by
      rw [hgf]
      unfold refSvcGetInventoryItem
      rw [if_neg (by simp [h1]), if_neg (by simp [h2]),
        refGetInventoryItem_hub_none hhub]
    rw [show (svcReleaseInventory st c t hc sc q).1 =
        Except.error ("failed to get inventory: " ++
          ("failed to get inventory item: " ++
            ("failed to get hub: hub not found with code: " ++ hc))) by
      unfold svcReleaseInventory
      rw [if_neg hq]
      rcases hg : svcGetInventoryItem st c t hc sc with ⟨r, c1⟩
      rw [hg] at hr
      simp only at hr
      subst hr
      rfl] at hsucc
    cases hsucc
  | some hub =>
    cases hsku : skuGetByCode st t sc with
    | none =>
      have hr : (svcGetInventoryItem st c t hc sc).1 =
          Except.error ("failed to get inventory item: " ++
            ("failed to get SKU: SKU not found with code: " ++ sc)) := by
        rw [hgf]
        unfold refSvcGetInventoryItem
        rw [if_neg (by simp [h1]), if_neg (by simp [h2]),
          refGetInventoryItem_sku_none hhub hsku]
      rw [show (svcReleaseInventory st c t hc sc q).1 =
          Except.error ("failed to get inventory: " ++
            ("failed to get inventory item: " ++
              ("failed to get SKU: SKU not found with code: " ++ sc))) by
        unfold svcReleaseInventory
        rw [if_neg hq]
        rcases hg : svcGetInventoryItem st c t hc sc with ⟨r, c1⟩
        rw [hg] at hr
        simp only at hr
        subst hr
        rfl] at hsucc
      cases hsucc
    | some sku =>
      cases hrow : findInv st t hub.id sku.id with
      | none =>
        have hr : (svcGetInventoryItem st c t hc sc).1 =
            Except.ok (zeroInv t hub.id sku.id) := by
          rw [hgf]
          unfold refSvcGetInventoryItem
          rw [if_neg (by simp [h1]), if_neg (by simp [h2]),
            refGetInventoryItem_zero hhub hsku hrow]
        rw [show (svcReleaseInventory st c t hc sc q).1 =
            Except.error "insufficient reserved quantity" by
          unfold svcReleaseInventory
          rw [if_neg hq]
          rcases hg : svcGetInventoryItem st c t hc sc with ⟨r, c1⟩
          rw [hg] at hr
          simp only at hr
          subst hr
          simp only []
          rw [if_pos (by unfold zeroInv; simp; omega)]] at hsucc
        cases hsucc
      | some inv =>
        by_cases hrv : inv.reserved < q
        · have hr : (svcGetInventoryItem st c t hc sc).1 = Except.ok inv := by
            rw [hgf, refSvcGetInventoryItem_of h1 h2 hhub hsku hrow]
          rw [show (svcReleaseInventory st c t hc sc q).1 =
              Except.error "insufficient reserved quantity" by
            unfold svcReleaseInventory
            rw [if_neg hq]
            rcases hg : svcGetInventoryItem st c t hc sc with ⟨r, c1⟩
            rw [hg] at hr
            simp only at hr
            subst hr
            simp only []
            rw [if_pos hrv]] at hsucc
          cases hsucc
        · obtain ⟨hs1, hs2, _⟩ := svcReleaseInventory_spec hcoh h1 h2 hhub hsku hrow
            (by omega : (0 : Int) < q) (by omega : q ≤ inv.reserved)
          exact ⟨hub, sku, inv, h1, h2, rfl, rfl, hrow, by omega, by omega, hs2⟩

/-- Inversion for `FulfillInventory`. -/
theorem svcFulfillInventory_ok_cases {c : CacheState} {st : Store} {t : Nat}
    {hc sc : String} {q : Int} (hcoh : ItemCoh c st)
    (hsucc : (svcFulfillInventory st c t hc sc q).1 = Except.ok ()) :
    ∃ hub sku inv, hc ≠ "" ∧ sc ≠ "" ∧
      hubGetByCode st t hc = some hub ∧ skuGetByCode st t sc = some sku ∧
      findInv st t hub.id sku.id = some inv ∧ 0 < q ∧ q ≤ inv.reserved ∧
      (svcFulfillInventory st c t hc sc q).2.1 =
        setQuantity (setReserved st t hub.id sku.id (-q)) t hub.id sku.id
          (inv.quantity - q) := by
  by_cases hq : q ≤ 0
  · rw [show svcFulfillInventory st c t hc sc q =
        (Except.error "quantity must be greater than zero", st, c) by
      unfold svcFulfillInventory; rw [if_pos hq]] at hsucc
    cases hsucc
  by_cases h1 : hc = ""
  · subst h1
    rw [show (svcFulfillInventory st c t "" sc q).1 =
        Except.error ("failed to get inventory: " ++ "hub code is required") by
      unfold svcFulfillInventory
      rw [if_neg hq, svcGetInventoryItem_blank_hub]] at hsucc
    cases hsucc
  by_cases h2 : sc = ""
  · subst h2
    rw [show (svcFulfillInventory st c t hc "" q).1 =
        Except.error ("failed to get inventory: " ++ "SKU code is required") by
      unfold svcFulfillInventory
      rw [if_neg hq, svcGetInventoryItem_blank_sku c t h1]] at hsucc
    cases hsucc
  obtain ⟨hgf, hgc⟩ := svcGetInventoryItem_spec hcoh h1 h2 (t := t)
  cases hhub : hubGetByCode st t hc with
  | none =>
    have hr : (svcGetInventoryItem st c t hc sc).1 =
        Except.error ("failed to get inventory item: " ++
          ("failed to get hub: hub not found with code: " ++ hc)) := by
      rw [hgf]
      unfold refSvcGetInventoryItem
      rw [if_neg (by simp [h1]), if_neg (by simp [h2]),
        refGetInventoryItem_hub_none hhub]
    rw [show (svcFulfillInventory st c t hc sc q).1 =
        Except.error ("failed to get inventory: " ++
          ("failed to get inventory item: " ++
            ("failed to get hub: hub not found with code: " ++ hc))) by
      unfold svcFulfillInventory
      rw [if_neg hq]
      rcases hg : svcGetInventoryItem st c t hc sc with ⟨r, c1⟩
      rw [hg] at hr
      simp only at hr
      subst hr
      rfl] at hsucc
    cases hsucc
  | some hub =>
    cases hsku : skuGetByCode st t sc with
    | none =>
      have hr : (svcGetInventoryItem st c t hc sc).1 =
          Except.error ("failed to get inventory item: " ++
            ("failed to get SKU: SKU not found with code: " ++ sc)) := by
        rw [hgf]
        unfold refSvcGetInventoryItem
        rw [if_neg (by simp [h1]), if_neg (by simp [h2]),
          refGetInventoryItem_sku_none hhub hsku]
      rw [show (svcFulfillInventory st c t hc sc q).1 =
          Except.error ("failed to get inventory: " ++
            ("failed to get inventory item: " ++
              ("failed to get SKU: SKU not found with code: " ++ sc))) by
        unfold svcFulfillInventory
        rw [if_neg hq]
        rcases hg : svcGetInventoryItem st c t hc sc with ⟨r, c1⟩
        rw [hg] at hr
        simp only at hr
        subst hr
        rfl] at hsucc
      cases hsucc
    | some sku =>
      cases hrow : findInv st t hub.id sku.id with
      | none =>
        have hr : (svcGetInventoryItem st c t hc sc).1 =
            Except.ok (zeroInv t hub.id sku.id) := by
          rw [hgf]
          unfold refSvcGetInventoryItem
          rw [if_neg (by simp [h1]), if_neg (by simp [h2]),
            refGetInventoryItem_zero hhub hsku hrow]
        rw [show (svcFulfillInventory st c t hc sc q).1 =
            Except.error "insufficient reserved quantity" by
          unfold svcFulfillInventory
          rw [if_neg hq]
          rcases hg : svcGetInventoryItem st c t hc sc with ⟨r, c1⟩
          rw [hg] at hr
          simp only at hr
          subst hr
          simp only []
          rw [if_pos (by unfold zeroInv; simp; omega)]] at hsucc
        cases hsucc
      | some inv =>
        by_cases hrv : inv.reserved < q
        · have hr : (svcGetInventoryItem st c t hc sc).1 = Except.ok inv := by
            rw [hgf, refSvcGetInventoryItem_of h1 h2 hhub hsku hrow]
          rw [show (svcFulfillInventory st c t hc sc q).1 =
              Except.error "insufficient reserved quantity" by
            unfold svcFulfillInventory
            rw [if_neg hq]
            rcases hg : svcGetInventoryItem st c t hc sc with ⟨r, c1⟩
            rw [hg] at hr
            simp only at hr
            subst hr
            simp only []
            rw [if_pos hrv]] at hsucc
          cases hsucc
        · obtain ⟨hs1, hs2⟩ := svcFulfillInventory_spec hcoh h1 h2 hhub hsku hrow
            (by omega : (0 : Int) < q) (by omega : q ≤ inv.reserved)
          exact ⟨hub, sku, inv, h1, h2, rfl, rfl, hrow, by omega, by omega, hs2⟩

/-! ## The quantity invariant -/

/-- The spec's record invariant:
`available >= 0 ∧ reserved >= 0 ∧ in_transit >= 0 ∧ available + reserved <= quantity`. -/
def InvOK (i : Inventory) : Prop :=
  0 ≤ i.available ∧ 0 ≤ i.reserved ∧ 0 ≤ i.inTransit ∧
    i.available + i.reserved ≤ i.quantity

instance (i : Inventory) : Decidable (InvOK i) := by
  unfold InvOK
  infer_instance

/-- All committed records satisfy the invariant. -/
def StoreOK (st : Store) : Prop := ∀ i ∈ st.inventories, InvOK i

instance (st : Store) : Decidable (StoreOK st) := by
  unfold StoreOK
  infer_instance

/-- The `(tenant_id, hub_id, sku_id)` uniqueness the schema guarantees. -/
def UniqRows (st : Store) : Prop :=
  ∀ i ∈ st.inventories, ∀ j ∈ st.inventories,
    i.tenantId = j.tenantId → i.hubId = j.hubId → i.skuId = j.skuId → i = j

instance (st : Store) : Decidable (UniqRows st) := by
  unfold UniqRows
  infer_instance

theorem uniq_keyed_eq {st : Store} (huni : UniqRows st) {t h s : Nat}
    {inv y : Inventory} (hi : findInv st t h s = some inv)
    (hy : y ∈ st.inventories) (hk : rowKeyed t h s y = true) : y = inv := by
  obtain ⟨h1, h2, h3⟩ := rowKeyed_of_findInv hi
  have hk' : (y.tenantId = t ∧ y.hubId = h) ∧ y.skuId = s := by
    simpa [rowKeyed] using hk
  exact huni y hy inv (List.mem_of_find?_eq_some hi)
    (by rw [hk'.1.1, h1]) (by rw [hk'.1.2, h2]) (by rw [hk'.2, h3])

/-- The committed store after a successful Reserve keeps the invariant. -/
theorem storeOK_reserve {st : Store} (hok : StoreOK st) (huni : UniqRows st)
    {t h s : Nat} {inv : Inventory} (hi : findInv st t h s = some inv)
    {q : Int} (hq : 0 < q) (hav : q ≤ inv.available) :
    StoreOK (setAvailable (setReserved st t h s q) t h s (-q)) := by
  intro x hx
  unfold setAvailable setReserved at hx
  simp only at hx
  obtain ⟨z, hz, hxz⟩ := List.mem_map.1 hx
  obtain ⟨y, hy, hzy⟩ := List.mem_map.1 hz
  by_cases hk : rowKeyed t h s y = true
  · have hyi := uniq_keyed_eq huni hi hy hk
    subst hyi
    rw [if_pos hk] at hzy
    subst hzy
    have hk2 : rowKeyed t h s { y with reserved := y.reserved + q } = true := hk
    rw [if_pos hk2] at hxz
    subst hxz
    obtain ⟨o1, o2, o3, o4⟩ := hok y hy
    unfold InvOK
    simp only
    omega
  · rw [if_neg hk] at hzy
    subst hzy
    rw [if_neg hk] at hxz
    subst hxz
    exact hok y hy

/-- The committed store after a successful Release keeps the invariant. -/
theorem storeOK_release {st : Store} (hok : StoreOK st) (huni : UniqRows st)
    {t h s : Nat} {inv : Inventory} (hi : findInv st t h s = some inv)
    {q : Int} (hq : 0 < q) (hrv : q ≤ inv.reserved) :
    StoreOK (setAvailable (setReserved st t h s (-q)) t h s q) := by
  intro x hx
  unfold setAvailable setReserved at hx
  simp only at hx
  obtain ⟨z, hz, hxz⟩ := List.mem_map.1 hx
  obtain ⟨y, hy, hzy⟩ := List.mem_map.1 hz
  by_cases hk : rowKeyed t h s y = true
  · have hyi := uniq_keyed_eq huni hi hy hk
    subst hyi
    rw [if_pos hk] at hzy
    subst hzy
    have hk2 : rowKeyed t h s { y with reserved := y.reserved + (-q) } = true := hk
    rw [if_pos hk2] at hxz
    subst hxz
    obtain ⟨o1, o2, o3, o4⟩ := hok y hy
    unfold InvOK
    simp only
    omega
  · rw [if_neg hk] at hzy
    subst hzy
    rw [if_neg hk] at hxz
    subst hxz
    exact hok y hy

/-- The committed store after a successful Fulfill keeps the invariant. -/
theorem storeOK_fulfill {st : Store} (hok : StoreOK st) (huni : UniqRows st)
    {t h s : Nat} {inv : Inventory} (hi : findInv st t h s = some inv)
    {q : Int} (hq : 0 < q) (hrv : q ≤ inv.reserved) :
    StoreOK (setQuantity (setReserved st t h s (-q)) t h s (inv.quantity - q)) := by
  intro x hx
  unfold setQuantity setReserved at hx
  simp only at hx
  obtain ⟨z, hz, hxz⟩ := List.mem_map.1 hx
  obtain ⟨y, hy, hzy⟩ := List.mem_map.1 hz
  by_cases hk : rowKeyed t h s y = true
  · have hyi := uniq_keyed_eq huni hi hy hk
    subst hyi
    rw [if_pos hk] at hzy
    subst hzy
    have hk2 : rowKeyed t h s { y with reserved := y.reserved + (-q) } = true := hk
    rw [if_pos hk2] at hxz
    subst hxz
    obtain ⟨o1, o2, o3, o4⟩ := hok y hy
    unfold InvOK
    simp only
    omega
  · rw [if_neg hk] at hzy
    subst hzy
    rw [if_neg hk] at hxz
    subst hxz
    exact hok y hy

/-! ## Upsert invariant preservation -/

/-- A quantity bound under which one update cannot break the invariant:
it is non-negative and at least `available + reserved` of every record it
keys to in the base store. -/
def UpdBound (st0 : Store) (t : Nat) (u : InventoryUpdate) : Prop :=
  0 ≤ u.quantity ∧
  ∀ hub sku, hubGetByCode st0 t u.hubCode = some hub →
    skuGetByCode st0 t u.skuCode = some sku →
    ∀ i ∈ st0.inventories, rowKeyed t hub.id sku.id i = true →
      i.available + i.reserved ≤ u.quantity

/-- Induction invariant on the transaction's pending row list: every row
keeps the invariant, and its flow counters either are zero (fresh insert)
or come from a same-key record of the base store. -/
def WorkOK (st0 : Store) (t : Nat) (work : List Inventory) : Prop :=
  ∀ i ∈ work, InvOK i ∧
    (i.available + i.reserved = 0 ∨
     ∃ j ∈ st0.inventories, j.tenantId = i.tenantId ∧ j.hubId = i.hubId ∧
       j.skuId = i.skuId ∧ j.available + j.reserved = i.available + i.reserved)

theorem workOK_of_storeOK {st0 : Store} (hok : StoreOK st0) (t : Nat) :
    WorkOK st0 t st0.inventories := by
  intro i hi
  exact ⟨hok i hi, Or.inr ⟨i, hi, rfl, rfl, rfl, rfl⟩⟩

theorem applyUpd_workOK {st0 st : Store} {t : Nat} {u : InventoryUpdate}
    {work w' : List Inventory}
    (hhubs : st.hubs = st0.hubs) (hskus : st.skus = st0.skus)
    (hb : UpdBound st0 t u) (hw : WorkOK st0 t work)
    (happ : applyUpd st work t u = Except.ok w') : WorkOK st0 t w' := by
  unfold applyUpd at happ
  rw [hubGetByCode_congr hhubs] at happ
  cases hhub : hubGetByCode st0 t u.hubCode with
  | none => rw [hhub] at happ; cases happ
  | some hub =>
    rw [hhub] at happ
    simp only at happ
    rw [skuGetByCode_congr hskus] at happ
    cases hsku : skuGetByCode st0 t u.skuCode with
    | none => rw [hsku] at happ; cases happ
    | some sku =>
      rw [hsku] at happ
      simp only at happ
      have hmapped : WorkOK st0 t (work.map (fun i =>
          if rowKeyed t hub.id sku.id i then { i with quantity := u.quantity }
          else i)) := by
        intro x hx
        obtain ⟨y, hy, hxy⟩ := List.mem_map.1 hx
        subst hxy
        obtain ⟨⟨w1, w2, w3, w4⟩, hflow⟩ := hw y hy
        by_cases hk : rowKeyed t hub.id sku.id y = true
        · rw [if_pos hk]
          have hbound : y.available + y.reserved ≤ u.quantity := by
            have h0 := hb.1
            rcases hflow with hz | ⟨j, hj, je1, je2, je3, je4⟩
            · omega
            · have hkj : rowKeyed t hub.id sku.id j = true := by
                have hk' : (y.tenantId = t ∧ y.hubId = hub.id) ∧ y.skuId = sku.id := by
                  simpa [rowKeyed] using hk
                simp [rowKeyed, je1, je2, je3, hk'.1.1, hk'.1.2, hk'.2]
              have := hb.2 hub sku hhub hsku j hj hkj
              omega
          constructor
          · exact ⟨w1, w2, w3, hbound⟩
          · rcases hflow with hz | ⟨j, hj, je1, je2, je3, je4⟩
            · exact Or.inl hz
            · exact Or.inr ⟨j, hj, je1, je2, je3, je4⟩
        · rw [if_neg hk]
          exact ⟨⟨w1, w2, w3, w4⟩, hflow⟩
      by_cases hn : ((work.filter (rowKeyed t hub.id sku.id)).length == 0) = true
      · rw [if_pos hn] at happ
        injection happ with happ
        subst happ
        intro x hx
        rcases List.mem_append.1 hx with hx1 | hx2
        · exact hmapped x hx1
        · have hxe : x =
              ({ tenantId := t, hubId := hub.id, skuId := sku.id,
                 quantity := u.quantity, available := 0, reserved := 0,
                 inTransit := 0 } : Inventory) := by simpa using hx2
          subst hxe
          refine ⟨⟨le_refl 0, le_refl 0, le_refl 0, by simpa using hb.1⟩, Or.inl (by simp)⟩
      · rw [if_neg hn] at happ
        injection happ with happ
        subst happ
        exact hmapped

theorem applyUpds_workOK {st0 st : Store} {t : Nat}
    (hhubs : st.hubs = st0.hubs) (hskus : st.skus = st0.skus) :
    ∀ (us : List InventoryUpdate) (work w' : List Inventory),
      (∀ u ∈ us, UpdBound st0 t u) → WorkOK st0 t work →
      applyUpds st t work us = Except.ok w' → WorkOK st0 t w' := by
  intro us
  induction us with
  | nil =>
    intro work w' _ hw happ
    unfold applyUpds at happ
    injection happ with happ
    subst happ
    exact hw
  | cons u rest ih =>
    intro work w' hb hw happ
    unfold applyUpds at happ
    cases h1 : applyUpd st work t u with
    | error e => rw [h1] at happ; cases happ
    | ok w1 =>
      rw [h1] at happ
      simp only at happ
      exact ih w1 w' (fun v hv => hb v (List.mem_cons_of_mem _ hv))
        (applyUpd_workOK hhubs hskus (hb u (List.mem_cons_self _ _)) hw h1) happ

/-- Invariant carried across batches of the service upsert. -/
def BatchInv (st0 st : Store) (t : Nat) : Prop :=
  st.hubs = st0.hubs ∧ st.skus = st0.skus ∧ WorkOK st0 t st.inventories

theorem repoUpsertInventory_batchInv {st0 st : Store} {c : CacheState} {t : Nat}
    {us : List InventoryUpdate} (hinv : BatchInv st0 st t)
    (hb : ∀ u ∈ us, UpdBound st0 t u) :
    BatchInv st0 (repoUpsertInventory st c t us).2.1 t := by
  obtain ⟨hhubs, hskus, hw⟩ := hinv
  unfold repoUpsertInventory
  cases happ : applyUpds st t st.inventories us with
  | error e => exact ⟨hhubs, hskus, hw⟩
  | ok w' =>
    exact ⟨hhubs, hskus, applyUpds_workOK hhubs hskus us st.inventories w' hb hw happ⟩

theorem runBatches_batchInv {st0 : Store} {t : Nat} :
    ∀ (bs : List (List InventoryUpdate)) (st : Store) (c : CacheState),
      BatchInv st0 st t → (∀ b ∈ bs, ∀ u ∈ b, UpdBound st0 t u) →
      BatchInv st0 (runBatches t st c bs).2.1 t := by
  intro bs
  induction bs with
  | nil => intro st c hinv _; exact hinv
  | cons b rest ih =>
    intro st c hinv hb
    unfold runBatches
    rcases hrep : repoUpsertInventory st c t b with ⟨r, st1, c1⟩
    have h1 : BatchInv st0 st1 t := by
      have hstep := repoUpsertInventory_batchInv (c := c) hinv
        (hb b (List.mem_cons_self _ _))
      rw [hrep] at hstep
      exact hstep
    cases r with
    | error e => exact h1
    | ok u => exact ih st1 c1 h1 (fun b' hb' => hb b' (List.mem_cons_of_mem _ hb'))

theorem chunks100_mem {b : List InventoryUpdate} {us : List InventoryUpdate}
    (hb : b ∈ chunks100 us) : ∀ u ∈ b, u ∈ us := by
  unfold chunks100 at hb
  obtain ⟨i, _, hbi⟩ := List.mem_map.1 hb
  subst hbi
  exact fun u hu => List.drop_subset _ _ (List.take_subset _ _ hu)

/-- The full service upsert preserves the store invariant whenever every
update's quantity dominates the flow counters it keys to. -/
theorem svcUpsertInventory_storeOK {st : Store} {c : CacheState} {t : Nat}
    {us : List InventoryUpdate} (hok : StoreOK st)
    (hb : ∀ u ∈ us, UpdBound st t u) :
    StoreOK (svcUpsertInventory st c t us).2.1 := by
  unfold svcUpsertInventory
  by_cases he : us.isEmpty
  · rw [if_pos he]
    exact hok
  · rw [if_neg he]
    cases hv : validateUpds 0 us with
    | some e => exact hok
    | none =>
      simp only
      have := runBatches_batchInv (chunks100 us) st c
        ⟨rfl, rfl, workOK_of_storeOK hok t⟩
        (fun b hbm u hu => hb u (chunks100_mem hbm u hu))
      exact fun i hi => (this.2.2 i hi).1

/-! ## Atomicity helpers -/

def isErr {α : Type} : Except String α → Bool
  | Except.error _ => true
  | Except.ok _ => false

/-- The repository upsert rolls back: a failing call leaves the store as
it was. -/
theorem repoUpsertInventory_rollback {st : Store} {c : CacheState} {t : Nat}
    {us : List InventoryUpdate} {r : Except String Unit} {st' : Store}
    {c' : CacheState} (heq : repoUpsertInventory st c t us = (r, st', c'))
    (herr : isErr r = true) : st' = st := by
  unfold repoUpsertInventory at heq
  cases h : applyUpds st t st.inventories us with
  | error e =>
    rw [h] at heq
    injection heq with h1 hrest
    injection hrest with h2 h3
    exact h2.symm
  | ok w =>
    rw [h] at heq
    injection heq with h1 hrest
    subst h1
    cases herr

theorem chunks100_small {us : List InventoryUpdate} (hne : us ≠ [])
    (hlen : us.length ≤ 100) : chunks100 us = [us] := by
  have hpos : 0 < us.length := List.length_pos.2 hne
  have hdiv : (us.length + 99) / 100 = 1 := by omega
  unfold chunks100
  rw [hdiv]
  show [(us.drop (100 * 0)).take 100] = [us]
  rw [Nat.mul_zero, List.drop_zero, List.take_of_length_le hlen]

/-- For at most 100 updates the whole service call is one transaction: a
failure leaves the store unchanged. -/
theorem svcUpsertInventory_small_atomic {st : Store} {c : CacheState} {t : Nat}
    {us : List InventoryUpdate} {r : Except String Unit} {st' : Store}
    {c' : CacheState} (hlen : us.length ≤ 100)
    (heq : svcUpsertInventory st c t us = (r, st', c'))
    (herr : isErr r = true) : st' = st := by
  unfold svcUpsertInventory at heq
  by_cases he : us.isEmpty
  · rw [if_pos he] at heq
    injection heq with h1 hrest
    injection hrest with h2 h3
    exact h2.symm
  · rw [if_neg he] at heq
    cases hv : validateUpds 0 us with
    | some e =>
      rw [hv] at heq
      injection heq with h1 hrest
      injection hrest with h2 h3
      exact h2.symm
    | none =>
      rw [hv] at heq
      simp only at heq
      rw [chunks100_small (fun hnil => he (by rw [hnil]; rfl)) hlen] at heq
      unfold runBatches at heq
      rcases hrep : repoUpsertInventory st c t us with ⟨r0, st0, c0⟩
      rw [hrep] at heq
      cases r0 with
      | error e =>
        simp only at heq
        injection heq with h1 hrest
        injection hrest with h2 h3
        subst h2
        exact repoUpsertInventory_rollback hrep rfl
      | ok u =>
        simp only at heq
        unfold runBatches at heq
        injection heq with h1 hrest
        subst h1
        cases herr

/-! ## GetInventory shape lemmas -/

theorem skuGetByCode_props {st : Store} {t : Nat} {code : String} {sku : SKU}
    (h : skuGetByCode st t code = some sku) :
    sku.tenantId = t ∧ sku.code = code := by
  have hp := List.find?_some h
  simpa using hp

@[simp] theorem normFilter_tenantId (f : InventoryFilter) :
    (normFilter f).tenantId = f.tenantId := rfl

@[simp] theorem normFilter_hubCode (f : InventoryFilter) :
    (normFilter f).hubCode = f.hubCode := rfl

@[simp] theorem normFilter_skuCodes (f : InventoryFilter) :
    (normFilter f).skuCodes = f.skuCodes := rfl

theorem codeSet_subset {codes : List String} {code : String}
    (h : code ∈ codeSet codes) : code ∈ codes := by
  unfold codeSet at h
  suffices haux : ∀ (cs : List String) (acc : List String),
      code ∈ cs.foldl (fun a c => if a.contains c then a else a ++ [c]) acc →
      code ∈ acc ∨ code ∈ cs by
    rcases haux codes [] h with h1 | h1
    · cases h1
    · exact h1
  intro cs
  induction cs with
  | nil => intro acc h1; exact Or.inl h1
  | cons cHead rest ih =>
    intro acc h1
    simp only [List.foldl_cons] at h1
    by_cases hc : acc.contains cHead
    · rw [if_pos hc] at h1
      rcases ih _ h1 with h2 | h2
      · exact Or.inl h2
      · exact Or.inr (List.mem_cons_of_mem _ h2)
    · rw [if_neg hc] at h1
      rcases ih _ h1 with h2 | h2
      · rcases List.mem_append.1 h2 with h3 | h3
        · exact Or.inl h3
        · have hcc : code = cHead := by simpa using h3
          exact Or.inr (hcc ▸ List.mem_cons_self _ _)
      · exact Or.inr (List.mem_cons_of_mem _ h2)

theorem mem_codeSet {codes : List String} {code : String} (h : code ∈ codes) :
    code ∈ codeSet codes := by
  unfold codeSet
  suffices haux : ∀ (cs : List String) (acc : List String),
      code ∈ acc ∨ code ∈ cs →
      code ∈ cs.foldl (fun a c => if a.contains c then a else a ++ [c]) acc by
    exact haux codes [] (Or.inr h)
  intro cs
  induction cs with
  | nil =>
    intro acc hmem
    rcases hmem with h1 | h1
    · exact h1
    · cases h1
  | cons c rest ih =>
    intro acc hmem
    simp only [List.foldl_cons]
    by_cases hc : acc.contains c
    · rw [if_pos hc]
      rcases hmem with h1 | h1
      · exact ih acc (Or.inl h1)
      · rcases List.mem_cons.1 h1 with h2 | h2
        · subst h2
          exact ih acc (Or.inl (by simpa using hc))
        · exact ih acc (Or.inr h2)
    · rw [if_neg hc]
      rcases hmem with h1 | h1
      · exact ih _ (Or.inl (List.mem_append_left _ h1))
      · rcases List.mem_cons.1 h1 with h2 | h2
        · subst h2
          exact ih _ (Or.inl (List.mem_append_right _ (by simp)))
        · exact ih _ (Or.inr h2)

/-- Inversion of a successful `GetInventory` carrying a SKU-code filter:
the result is the repository page followed by the zero padding, and the
total is the repository total. -/
theorem svcGetInventory_ok_shape {st : Store} {c : CacheState}
    {f : InventoryFilter} {rows : List InvRow} {total : Int} {c' : CacheState}
    (hne : f.skuCodes ≠ [])
    (heq : svcGetInventory st c f = (Except.ok (rows, total), c')) :
    ∃ rows0, dbGetInventory st (normFilter f) = Except.ok (rows0, total) ∧
      rows = rows0 ++ zeroPad st f.tenantId (normFilter f)
        ((codeSet f.skuCodes).filter (fun code =>
          !((rows0.filterMap (fun r => r.sku.map SKU.code)).contains code))) := by
  have hnotempty : f.skuCodes.isEmpty = false := by
    cases hsc : f.skuCodes with
    | nil => cases hne hsc
    | cons a l => rfl
  unfold svcGetInventory repoGetInventory at heq
  simp only [normFilter_skuCodes, normFilter_tenantId, hnotempty, Bool.and_false,
    Bool.false_eq_true, if_false] at heq
  cases hdb : dbGetInventory st (normFilter f) with
  | error e =>
    rw [hdb] at heq
    simp only at heq
    injection heq with h1 h2
    cases h1
  | ok p =>
    obtain ⟨rows0, total0⟩ := p
    rw [hdb] at heq
    simp only [hnotempty, Bool.false_eq_true, if_false] at heq
    injection heq with h1 h2
    injection h1 with h3
    injection h3 with h4 h5
    subst h5
    exact ⟨rows0, rfl, h4.symm⟩

theorem dbGetInventory_ok_shape {st : Store} {f : InventoryFilter}
    {rows0 : List InvRow} {total : Int}
    (heq : dbGetInventory st f = Except.ok (rows0, total)) :
    ∃ all, dbQueryRows st f = Except.ok all ∧ total = (all.length : Int) ∧
      rows0 = ((all.drop ((f.page - 1) * f.pageSize).toNat).take
        f.pageSize.toNat).map (preloadRow st) := by
  unfold dbGetInventory at heq
  cases hq : dbQueryRows st f with
  | error e => rw [hq] at heq; cases heq
  | ok all =>
    rw [hq] at heq
    simp only at heq
    injection heq with h1
    injection h1 with h2 h3
    exact ⟨all, rfl, h3.symm, h2.symm⟩

/-- Membership in the zero padding. -/
theorem zeroPad_mem {st : Store} {t : Nat} {f : InventoryFilter}
    {missing : List String} {r : InvRow} (hr : r ∈ zeroPad st t f missing) :
    ∃ code ∈ missing, ∃ sku, skuGetByCode st t code = some sku ∧
      r.sku = some sku ∧ r.inv.quantity = 0 ∧ r.inv.available = 0 ∧
      r.inv.reserved = 0 ∧ r.inv.inTransit = 0 := by
  unfold zeroPad at hr
  obtain ⟨code, hcode, hmk⟩ := List.mem_filterMap.1 hr
  cases hg : skuGetByCode st t code with
  | none => rw [hg] at hmk; cases hmk
  | some sku =>
    rw [hg] at hmk
    simp only at hmk
    injection hmk with hmk
    refine ⟨code, hcode, sku, hg, ?_⟩
    rw [← hmk]
    exact ⟨rfl, rfl, rfl, rfl, rfl⟩

theorem zeroPad_mem_of {st : Store} {t : Nat} (f : InventoryFilter)
    {missing : List String} {code : String} {sku : SKU} (hm : code ∈ missing)
    (hr : skuGetByCode st t code = some sku) :
    ∃ r ∈ zeroPad st t f missing, r.sku = some sku ∧ r.inv.quantity = 0 ∧
      r.inv.available = 0 ∧ r.inv.reserved = 0 ∧ r.inv.inTransit = 0 := by
  refine ⟨{ inv := { tenantId := t, hubId := 0, skuId := sku.id, quantity := 0,
                     available := 0, reserved := 0, inTransit := 0 },
            sku := some sku,
            hub := if f.hubCode != "" then hubGetByCode st t f.hubCode else none },
          ?_, rfl, rfl, rfl, rfl, rfl⟩
  unfold zeroPad
  exact List.mem_filterMap.2 ⟨code, hm, by rw [hr]⟩

/-! ## Concrete stores used by the claim witnesses and counterexamples -/

/-- One tenant, one hub, one SKU, one stocked record satisfying the
invariant (`20 + 30 ≤ 50`). -/
def demoStore : Store :=
  { hubs := [{ id := 1, tenantId := 1, code := "H1" }],
    skus := [{ id := 10, tenantId := 1, sellerId := 100, code := "S1" }],
    inventories := [{ tenantId := 1, hubId := 1, skuId := 10,
                      quantity := 50, available := 20, reserved := 30,
                      inTransit := 0 }] }

/-- Hub `H1` and SKU `S1` exist, no inventory rows. -/
def bareStore : Store :=
  { hubs := [{ id := 1, tenantId := 1, code := "H1" }],
    skus := [{ id := 10, tenantId := 1, sellerId := 100, code := "S1" }],
    inventories := [] }

/-- SKU `S1` stocked in two hubs of the same tenant. -/
def twoHubStore : Store :=
  { hubs := [{ id := 1, tenantId := 1, code := "H1" },
             { id := 2, tenantId := 1, code := "H2" }],
    skus := [{ id := 10, tenantId := 1, sellerId := 100, code := "S1" }],
    inventories := [{ tenantId := 1, hubId := 1, skuId := 10,
                      quantity := 5, available := 0, reserved := 0,
                      inTransit := 0 },
                    { tenantId := 1, hubId := 2, skuId := 10,
                      quantity := 6, available := 0, reserved := 0,
                      inTransit := 0 }] }

/-- SKUs `S1` and `S2`, only `S2` stocked. -/
def padStore : Store :=
  { hubs := [{ id := 1, tenantId := 1, code := "H1" }],
    skus := [{ id := 10, tenantId := 1, sellerId := 100, code := "S1" },
             { id := 20, tenantId := 1, sellerId := 100, code := "S2" }],
    inventories := [{ tenantId := 1, hubId := 1, skuId := 20,
                      quantity := 7, available := 3, reserved := 2,
                      inTransit := 0 }] }

/-- Filter requesting only `S1` with default pagination. -/
def oneCodeFilter : InventoryFilter :=
  { tenantId := 1, hubCode := "", sellerId := none, skuCodes := ["S1"],
    page := 1, pageSize := 20 }

/-- Filter requesting `S1` and `S2` with page size 1. -/
def twoCodeFilter : InventoryFilter :=
  { tenantId := 1, hubCode := "", sellerId := none, skuCodes := ["S1", "S2"],
    page := 1, pageSize := 1 }

/-! ## Claims -/

/-- C3: `ReserveInventory` fails with a validation error for `qty <= 0`
and with `InsufficientAvailable` when the record's `available` is below
the requested quantity (given a coherent cache and resolvable, non-blank
codes); in both cases the durable store is left exactly unchanged, so
`reserved` is never incremented by a failed reserve. -/
theorem claim_C3 :
    (∀ (st : Store) (c : CacheState) (t : Nat) (hc sc : String) (q : Int),
       q ≤ 0 →
       svcReserveInventory st c t hc sc q =
         (Except.error "quantity must be greater than zero", st, c)) ∧
    (∀ (st : Store) (c : CacheState) (t : Nat) (hc sc : String)
       (hub : Hub) (sku : SKU) (inv : Inventory) (q : Int),
       ItemCoh c st → hc ≠ "" → sc ≠ "" →
       hubGetByCode st t hc = some hub → skuGetByCode st t sc = some sku →
       findInv st t hub.id sku.id = some inv → 0 < q → inv.available < q →
       (svcReserveInventory st c t hc sc q).1 =
         Except.error "insufficient available quantity" ∧
       (svcReserveInventory st c t hc sc q).2.1 = st) := by
  constructor
  · intro st c t hc sc q hq
    unfold svcReserveInventory
    rw [if_pos hq]
  · intro st c t hc sc hub sku inv q hcoh h1 h2 hh hs hi hq hlt
    obtain ⟨hgf, hgc⟩ := svcGetInventoryItem_spec hcoh h1 h2 (t := t)
    unfold svcReserveInventory
    rw [if_neg (by omega : ¬ q ≤ 0)]
    rcases hg : svcGetInventoryItem st c t hc sc with ⟨r, c1⟩
    rw [hg] at hgf
    simp only at hgf
    rw [refSvcGetInventoryItem_of h1 h2 hh hs hi] at hgf
    subst hgf
    simp only []
    rw [if_pos hlt]
    exact ⟨rfl, rfl⟩

theorem claim_C3_witness :
    (svcReserveInventory demoStore CacheState.down 1 "H1" "S1" 0 =
      (Except.error "quantity must be greater than zero", demoStore,
        CacheState.down)) ∧
    ((svcReserveInventory demoStore CacheState.down 1 "H1" "S1" 25).1 =
      Except.error "insufficient available quantity" ∧
     (svcReserveInventory demoStore CacheState.down 1 "H1" "S1" 25).2.1 =
      demoStore) :=
  ⟨claim_C3.1 demoStore CacheState.down 1 "H1" "S1" 0 (by decide),
   claim_C3.2 demoStore CacheState.down 1 "H1" "S1"
     { id := 1, tenantId := 1, code := "H1" }
     { id := 10, tenantId := 1, sellerId := 100, code := "S1" }
     { tenantId := 1, hubId := 1, skuId := 10, quantity := 50, available := 20,
       reserved := 30, inTransit := 0 } 25
     (itemCoh_down demoStore) (by decide) (by decide) (by decide) (by decide)
     (by decide) (by decide) (by decide)⟩

/-- C4: a successful repository upsert only rewrites `quantity` on an
existing record (its `available`, `reserved` and `in_transit` survive
untouched), and inserts a record with the given quantity and all flow
counters at zero when none exists. -/
theorem claim_C4 :
    (∀ (st : Store) (c : CacheState) (t : Nat) (u : InventoryUpdate)
       (hub : Hub) (sku : SKU) (old : Inventory),
       hubGetByCode st t u.hubCode = some hub →
       skuGetByCode st t u.skuCode = some sku →
       findInv st t hub.id sku.id = some old →
       (repoUpsertInventory st c t [u]).1 = Except.ok () ∧
       findInv (repoUpsertInventory st c t [u]).2.1 t hub.id sku.id =
         some { old with quantity := u.quantity }) ∧
    (∀ (st : Store) (c : CacheState) (t : Nat) (u : InventoryUpdate)
       (hub : Hub) (sku : SKU),
       hubGetByCode st t u.hubCode = some hub →
       skuGetByCode st t u.skuCode = some sku →
       findInv st t hub.id sku.id = none →
       (repoUpsertInventory st c t [u]).1 = Except.ok () ∧
       findInv (repoUpsertInventory st c t [u]).2.1 t hub.id sku.id =
         some { tenantId := t, hubId := hub.id, skuId := sku.id,
                quantity := u.quantity, available := 0, reserved := 0,
                inTransit := 0 }) := by
  constructor
  · intro st c t u hub sku old hh hs hi
    rw [repoUpsertInventory_single_existing c hh hs (matchCount_ne_zero hi)]
    exact ⟨rfl, findInv_setQuantity_self hi u.quantity⟩
  · intro st c t u hub sku hh hs hi
    rw [repoUpsertInventory_single_new c hh hs (by
      unfold matchCount
      unfold findInv at hi
      rw [List.length_eq_zero, List.filter_eq_nil_iff]
      intro a ha
      have := List.find?_eq_none.1 hi a ha
      simpa using this)]
    refine ⟨rfl, ?_⟩
    unfold findInv
    simp only
    rw [List.find?_append]
    unfold findInv at hi
    rw [hi]
    simp [rowKeyed]

theorem claim_C4_witness :
    ((repoUpsertInventory demoStore CacheState.down 1
        [{ hubCode := "H1", skuCode := "S1", quantity := 10 }]).1 =
          Except.ok () ∧
     findInv (repoUpsertInventory demoStore CacheState.down 1
        [{ hubCode := "H1", skuCode := "S1", quantity := 10 }]).2.1 1 1 10 =
       some { tenantId := 1, hubId := 1, skuId := 10, quantity := 10,
              available := 20, reserved := 30, inTransit := 0 }) ∧
    ((repoUpsertInventory bareStore CacheState.down 1
        [{ hubCode := "H1", skuCode := "S1", quantity := 100 }]).1 =
          Except.ok () ∧
     findInv (repoUpsertInventory bareStore CacheState.down 1
        [{ hubCode := "H1", skuCode := "S1", quantity := 100 }]).2.1 1 1 10 =
       some { tenantId := 1, hubId := 1, skuId := 10, quantity := 100,
              available := 0, reserved := 0, inTransit := 0 }) :=
  ⟨claim_C4.1 demoStore CacheState.down 1 _
     { id := 1, tenantId := 1, code := "H1" }
     { id := 10, tenantId := 1, sellerId := 100, code := "S1" }
     { tenantId := 1, hubId := 1, skuId := 10, quantity := 50, available := 20,
       reserved := 30, inTransit := 0 }
     (by decide) (by decide) (by decide),
   claim_C4.2 bareStore CacheState.down 1 _
     { id := 1, tenantId := 1, code := "H1" }
     { id := 10, tenantId := 1, sellerId := 100, code := "S1" }
     (by decide) (by decide) (by decide)⟩

/-- C5: with a coherent cache, `GetInventoryItem` on resolvable non-blank
codes with no stored row succeeds with an all-zero record carrying the
resolved hub and SKU ids; when either code fails to resolve it returns an
error. -/
theorem claim_C5 :
    (∀ (st : Store) (c : CacheState) (t : Nat) (hc sc : String)
       (hub : Hub) (sku : SKU),
       ItemCoh c st → hc ≠ "" → sc ≠ "" →
       hubGetByCode st t hc = some hub → skuGetByCode st t sc = some sku →
       findInv st t hub.id sku.id = none →
       (svcGetInventoryItem st c t hc sc).1 =
         Except.ok (zeroInv t hub.id sku.id)) ∧
    (∀ (st : Store) (c : CacheState) (t : Nat) (hc sc : String),
       ItemCoh c st → hubGetByCode st t hc = none →
       isErr (svcGetInventoryItem st c t hc sc).1 = true) ∧
    (∀ (st : Store) (c : CacheState) (t : Nat) (hc sc : String) (hub : Hub),
       ItemCoh c st → hubGetByCode st t hc = some hub →
       skuGetByCode st t sc = none →
       isErr (svcGetInventoryItem st c t hc sc).1 = true) := by
  refine ⟨?_, ?_, ?_⟩
  · intro st c t hc sc hub sku hcoh h1 h2 hh hs hi
    obtain ⟨hgf, _⟩ := svcGetInventoryItem_spec hcoh h1 h2 (t := t)
    rw [hgf]
    unfold refSvcGetInventoryItem
    rw [if_neg (by simp [h1]), if_neg (by simp [h2]),
      refGetInventoryItem_zero hh hs hi]
  · intro st c t hc sc hcoh hh
    by_cases h1 : hc = ""
    · subst h1
      rw [svcGetInventoryItem_blank_hub]
      rfl
    by_cases h2 : sc = ""
    · subst h2
      rw [svcGetInventoryItem_blank_sku c t h1]
      rfl
    obtain ⟨hgf, _⟩ := svcGetInventoryItem_spec hcoh h1 h2 (t := t)
    rw [hgf]
    unfold refSvcGetInventoryItem
    rw [if_neg (by simp [h1]), if_neg (by simp [h2]),
      refGetInventoryItem_hub_none hh]
    rfl
  · intro st c t hc sc hub hcoh hh hs
    by_cases h1 : hc = ""
    · subst h1
      rw [svcGetInventoryItem_blank_hub]
      rfl
    by_cases h2 : sc = ""
    · subst h2
      rw [svcGetInventoryItem_blank_sku c t h1]
      rfl
    obtain ⟨hgf, _⟩ := svcGetInventoryItem_spec hcoh h1 h2 (t := t)
    rw [hgf]
    unfold refSvcGetInventoryItem
    rw [if_neg (by simp [h1]), if_neg (by simp [h2]),
      refGetInventoryItem_sku_none hh hs]
    rfl

theorem claim_C5_witness :
    ((svcGetInventoryItem bareStore CacheState.down 1 "H1" "S1").1 =
      Except.ok (zeroInv 1 1 10)) ∧
    (isErr (svcGetInventoryItem bareStore CacheState.down 1 "NOPE" "S1").1 =
      true) ∧
    (isErr (svcGetInventoryItem bareStore CacheState.down 1 "H1" "NOPE").1 =
      true) :=
  ⟨claim_C5.1 bareStore CacheState.down 1 "H1" "S1"
     { id := 1, tenantId := 1, code := "H1" }
     { id := 10, tenantId := 1, sellerId := 100, code := "S1" }
     (itemCoh_down bareStore) (by decide) (by decide) (by decide) (by decide)
     (by decide),
   claim_C5.2.1 bareStore CacheState.down 1 "NOPE" "S1"
     (itemCoh_down bareStore) (by decide),
   claim_C5.2.2 bareStore CacheState.down 1 "H1" "NOPE"
     { id := 1, tenantId := 1, code := "H1" }
     (itemCoh_down bareStore) (by decide) (by decide)⟩

/-- C6: with a coherent cache and resolvable codes, a successful
`FulfillInventory` decreases `reserved` and `quantity` by the fulfilled
amount while leaving `available` and `in_transit` untouched; when
`reserved` is below the requested quantity it fails with
`InsufficientReserved` and leaves the store exactly unchanged. -/
theorem claim_C6 :
    (∀ (st : Store) (c : CacheState) (t : Nat) (hc sc : String)
       (hub : Hub) (sku : SKU) (inv : Inventory) (q : Int),
       ItemCoh c st → hc ≠ "" → sc ≠ "" →
       hubGetByCode st t hc = some hub → skuGetByCode st t sc = some sku →
       findInv st t hub.id sku.id = some inv → 0 < q → q ≤ inv.reserved →
       (svcFulfillInventory st c t hc sc q).1 = Except.ok () ∧
       findInv (svcFulfillInventory st c t hc sc q).2.1 t hub.id sku.id =
         some { inv with reserved := inv.reserved - q,
                         quantity := inv.quantity - q }) ∧
    (∀ (st : Store) (c : CacheState) (t : Nat) (hc sc : String)
       (hub : Hub) (sku : SKU) (inv : Inventory) (q : Int),
       ItemCoh c st → hc ≠ "" → sc ≠ "" →
       hubGetByCode st t hc = some hub → skuGetByCode st t sc = some sku →
       findInv st t hub.id sku.id = some inv → 0 < q → inv.reserved < q →
       (svcFulfillInventory st c t hc sc q).1 =
         Except.error "insufficient reserved quantity" ∧
       (svcFulfillInventory st c t hc sc q).2.1 = st) := by
  constructor
  · intro st c t hc sc hub sku inv q hcoh h1 h2 hh hs hi hq hrv
    obtain ⟨hs1, hs2⟩ := svcFulfillInventory_spec hcoh h1 h2 hh hs hi hq hrv
    refine ⟨hs1, ?_⟩
    rw [hs2]
    rw [findInv_setQuantity_self (findInv_setReserved_self hi (-q))
      (inv.quantity - q)]
    simp only [Option.some.injEq, Inventory.mk.injEq, and_true, true_and,
      eq_self_iff_true]
    omega
  · intro st c t hc sc hub sku inv q hcoh h1 h2 hh hs hi hq hrv
    obtain ⟨hgf, hgc⟩ := svcGetInventoryItem_spec hcoh h1 h2 (t := t)
    unfold svcFulfillInventory
    rw [if_neg (by omega : ¬ q ≤ 0)]
    rcases hg : svcGetInventoryItem st c t hc sc with ⟨r, c1⟩
    rw [hg] at hgf
    simp only at hgf
    rw [refSvcGetInventoryItem_of h1 h2 hh hs hi] at hgf
    subst hgf
    simp only []
    rw [if_pos hrv]
    exact ⟨rfl, rfl⟩

theorem claim_C6_witness :
    ((svcFulfillInventory demoStore CacheState.down 1 "H1" "S1" 30).1 =
       Except.ok () ∧
     findInv (svcFulfillInventory demoStore CacheState.down 1 "H1" "S1" 30).2.1
         1 1 10 =
       some { tenantId := 1, hubId := 1, skuId := 10, quantity := 20,
              available := 20, reserved := 0, inTransit := 0 }) ∧
    ((svcFulfillInventory demoStore CacheState.down 1 "H1" "S1" 31).1 =
       Except.error "insufficient reserved quantity" ∧
     (svcFulfillInventory demoStore CacheState.down 1 "H1" "S1" 31).2.1 =
       demoStore) :=
  ⟨claim_C6.1 demoStore CacheState.down 1 "H1" "S1"
     { id := 1, tenantId := 1, code := "H1" }
     { id := 10, tenantId := 1, sellerId := 100, code := "S1" }
     { tenantId := 1, hubId := 1, skuId := 10, quantity := 50, available := 20,
       reserved := 30, inTransit := 0 } 30
     (itemCoh_down demoStore) (by decide) (by decide) (by decide) (by decide)
     (by decide) (by decide) (by decide),
   claim_C6.2 demoStore CacheState.down 1 "H1" "S1"
     { id := 1, tenantId := 1, code := "H1" }
     { id := 10, tenantId := 1, sellerId := 100, code := "S1" }
     { tenantId := 1, hubId := 1, skuId := 10, quantity := 50, available := 20,
       reserved := 30, inTransit := 0 } 31
     (itemCoh_down demoStore) (by decide) (by decide) (by decide) (by decide)
     (by decide) (by decide) (by decide)⟩

/-- C7: with a coherent cache and non-negative reserved counters, whenever
`ReserveInventory` succeeds, an immediately following `ReleaseInventory`
of the same quantity (against the resulting store and cache) also
succeeds, and the record for the resolved (hub, sku) is restored exactly
to its pre-Reserve value. -/
theorem claim_C7 :
    ∀ (st : Store) (c : CacheState) (t : Nat) (hc sc : String) (q : Int),
      ItemCoh c st → (∀ i ∈ st.inventories, 0 ≤ i.reserved) →
      (svcReserveInventory st c t hc sc q).1 = Except.ok () →
      (svcReleaseInventory (svcReserveInventory st c t hc sc q).2.1
         (svcReserveInventory st c t hc sc q).2.2 t hc sc q).1 = Except.ok () ∧
      ∀ (hub : Hub) (sku : SKU),
        hubGetByCode st t hc = some hub → skuGetByCode st t sc = some sku →
        findInv (svcReleaseInventory (svcReserveInventory st c t hc sc q).2.1
            (svcReserveInventory st c t hc sc q).2.2 t hc sc q).2.1
          t hub.id sku.id = findInv st t hub.id sku.id := by
  intro st c t hc sc q hcoh hres hsucc
  obtain ⟨hub, sku, inv, h1, h2, hh, hs, hi, hq, hav, hst1⟩ :=
    svcReserveInventory_ok_cases hcoh hsucc
  obtain ⟨_, _, hcoh1⟩ := svcReserveInventory_spec hcoh h1 h2 hh hs hi hq hav
  set st1 := setAvailable (setReserved st t hub.id sku.id q) t hub.id sku.id (-q)
    with hst1def
  have hh1 : hubGetByCode st1 t hc = some hub :=
    (hubGetByCode_congr rfl t hc).trans hh
  have hs1 : skuGetByCode st1 t sc = some sku :=
    (skuGetByCode_congr rfl t sc).trans hs
  have hi1 : findInv st1 t hub.id sku.id =
      some { inv with available := inv.available + -q,
                      reserved := inv.reserved + q } := by
    rw [hst1def, findInv_setAvailable_self (findInv_setReserved_self hi q) (-q)]
  have hinvres : 0 ≤ inv.reserved :=
    hres inv (List.mem_of_find?_eq_some hi)
  have hrel := svcReleaseInventory_spec hcoh1 h1 h2 hh1 hs1 hi1 hq
    (by simp only; omega)
  rw [hst1]
  obtain ⟨hr1, hr2, _⟩ := hrel
  refine ⟨hr1, ?_⟩
  intro hub' sku' hh' hs'
  have hhub' : hub' = hub := by
    rw [hh] at hh'
    injection hh' with h
    exact h.symm
  have hsku' : sku' = sku := by
    rw [hs] at hs'
    injection hs' with h
    exact h.symm
  subst hhub'
  subst hsku'
  rw [hr2]
  rw [findInv_setAvailable_self (findInv_setReserved_self hi1 (-q)) q, hi]
  cases inv
  simp only [Option.some.injEq, Inventory.mk.injEq, and_true, true_and,
    eq_self_iff_true]
  constructor <;> omega

theorem claim_C7_witness :
    ((svcReleaseInventory
        (svcReserveInventory demoStore CacheState.down 1 "H1" "S1" 5).2.1
        (svcReserveInventory demoStore CacheState.down 1 "H1" "S1" 5).2.2
        1 "H1" "S1" 5).1 = Except.ok ()) ∧
    findInv (svcReleaseInventory
        (svcReserveInventory demoStore CacheState.down 1 "H1" "S1" 5).2.1
        (svcReserveInventory demoStore CacheState.down 1 "H1" "S1" 5).2.2
        1 "H1" "S1" 5).2.1 1 1 10 = findInv demoStore 1 1 10 := by
  have h := claim_C7 demoStore CacheState.down 1 "H1" "S1" 5
    (itemCoh_down demoStore) (by decide) (by decide)
  exact ⟨h.1, h.2 { id := 1, tenantId := 1, code := "H1" }
    { id := 10, tenantId := 1, sellerId := 100, code := "S1" }
    (by decide) (by decide)⟩

/-- C9: with a failed cache (every cache get errors and is treated as a
miss, every cache set/delete errors and is ignored) each ledger operation
returns exactly the result and durable-store outcome of the cache-free
reference semantics: cache failures are never propagated. -/
theorem claim_C9 :
    (∀ (st : Store) (t : Nat) (hc sc : String),
       svcGetInventoryItem st CacheState.down t hc sc =
         (refSvcGetInventoryItem st t hc sc, CacheState.down)) ∧
    (∀ (st : Store) (f : InventoryFilter),
       svcGetInventory st CacheState.down f =
         (refSvcGetInventory st f, CacheState.down)) ∧
    (∀ (st : Store) (t : Nat) (us : List InventoryUpdate),
       svcUpsertInventory st CacheState.down t us =
         ((refSvcUpsertInventory st t us).1, (refSvcUpsertInventory st t us).2,
           CacheState.down)) ∧
    (∀ (st : Store) (t : Nat) (hc sc : String) (q : Int),
       svcReserveInventory st CacheState.down t hc sc q =
         ((refSvcReserveInventory st t hc sc q).1,
          (refSvcReserveInventory st t hc sc q).2, CacheState.down)) ∧
    (∀ (st : Store) (t : Nat) (hc sc : String) (q : Int),
       svcReleaseInventory st CacheState.down t hc sc q =
         ((refSvcReleaseInventory st t hc sc q).1,
          (refSvcReleaseInventory st t hc sc q).2, CacheState.down)) ∧
    (∀ (st : Store) (t : Nat) (hc sc : String) (q : Int),
       svcFulfillInventory st CacheState.down t hc sc q =
         ((refSvcFulfillInventory st t hc sc q).1,
          (refSvcFulfillInventory st t hc sc q).2, CacheState.down)) :=
  ⟨svcGetInventoryItem_down, svcGetInventory_down, svcUpsertInventory_down,
   svcReserveInventory_down, svcReleaseInventory_down, svcFulfillInventory_down⟩

/-- C1 counterexample: from a store satisfying the invariant, a successful
`UpsertInventory` that lowers `quantity` to 10 while `available = 20` and
`reserved = 30` leaves a committed record violating
`available + reserved <= quantity`. -/
theorem claim_C1_counterexample :
    StoreOK demoStore ∧
    (svcUpsertInventory demoStore CacheState.down 1
      [{ hubCode := "H1", skuCode := "S1", quantity := 10 }]).1 =
        Except.ok () ∧
    ¬ StoreOK (svcUpsertInventory demoStore CacheState.down 1
      [{ hubCode := "H1", skuCode := "S1", quantity := 10 }]).2.1 := by
  refine ⟨by decide, by decide, ?_⟩
  intro hok
  have := hok { tenantId := 1, hubId := 1, skuId := 10, quantity := 10,
                available := 20, reserved := 30, inTransit := 0 } (by decide)
  revert this
  decide

/-- C1 amended: the three stock transitions preserve the invariant on
every committed record (given the schema's row-key uniqueness and a
coherent cache), and `UpsertInventory` preserves it exactly when every
update's new quantity is non-negative and at least `available + reserved`
of every record it keys to; the unrestricted claim fails because the
upsert may lower `quantity` below `available + reserved`. -/
theorem claim_C1_amended :
    (∀ (st : Store) (c : CacheState) (t : Nat) (hc sc : String) (q : Int),
       StoreOK st → UniqRows st → ItemCoh c st →
       (svcReserveInventory st c t hc sc q).1 = Except.ok () →
       StoreOK (svcReserveInventory st c t hc sc q).2.1) ∧
    (∀ (st : Store) (c : CacheState) (t : Nat) (hc sc : String) (q : Int),
       StoreOK st → UniqRows st → ItemCoh c st →
       (svcReleaseInventory st c t hc sc q).1 = Except.ok () →
       StoreOK (svcReleaseInventory st c t hc sc q).2.1) ∧
    (∀ (st : Store) (c : CacheState) (t : Nat) (hc sc : String) (q : Int),
       StoreOK st → UniqRows st → ItemCoh c st →
       (svcFulfillInventory st c t hc sc q).1 = Except.ok () →
       StoreOK (svcFulfillInventory st c t hc sc q).2.1) ∧
    (∀ (st : Store) (c : CacheState) (t : Nat) (us : List InventoryUpdate),
       StoreOK st → (∀ u ∈ us, UpdBound st t u) →
       StoreOK (svcUpsertInventory st c t us).2.1) := by
  refine ⟨?_, ?_, ?_, ?_⟩
  · intro st c t hc sc q hok huni hcoh hsucc
    obtain ⟨hub, sku, inv, _, _, _, _, hi, hq, hav, hst⟩ :=
      svcReserveInventory_ok_cases hcoh hsucc
    rw [hst]
    exact storeOK_reserve hok huni hi hq hav
  · intro st c t hc sc q hok huni hcoh hsucc
    obtain ⟨hub, sku, inv, _, _, _, _, hi, hq, hrv, hst⟩ :=
      svcReleaseInventory_ok_cases hcoh hsucc
    rw [hst]
    exact storeOK_release hok huni hi hq hrv
  · intro st c t hc sc q hok huni hcoh hsucc
    obtain ⟨hub, sku, inv, _, _, _, _, hi, hq, hrv, hst⟩ :=
      svcFulfillInventory_ok_cases hcoh hsucc
    rw [hst]
    exact storeOK_fulfill hok huni hi hq hrv
  · intro st c t us hok hb
    exact svcUpsertInventory_storeOK hok hb

theorem claim_C1_amended_witness :
    StoreOK (svcReserveInventory demoStore CacheState.down 1 "H1" "S1" 5).2.1 :=
  claim_C1_amended.1 demoStore CacheState.down 1 "H1" "S1" 5 (by decide)
    (by decide) (itemCoh_down demoStore) (by decide)

/-- C2 counterexample: a 101-entry update list whose last entry has an
unknown SKU code fails as a whole, yet the first chunk of 100 updates
stays committed — the call is not all-or-nothing beyond one chunk. -/
theorem claim_C2_counterexample :
    isErr (svcUpsertInventory bareStore CacheState.down 1
      (List.replicate 100
        ({ hubCode := "H1", skuCode := "S1", quantity := 9 } : InventoryUpdate) ++
        [{ hubCode := "H1", skuCode := "BAD", quantity := 1 }])).1 = true ∧
    (svcUpsertInventory bareStore CacheState.down 1
      (List.replicate 100
        ({ hubCode := "H1", skuCode := "S1", quantity := 9 } : InventoryUpdate) ++
        [{ hubCode := "H1", skuCode := "BAD", quantity := 1 }])).2.1 ≠
      bareStore := by
  constructor
  · decide
  · decide

/-- C2 amended: the repository upsert is all-or-nothing (any failure
leaves the store exactly as before the call), and the service-level call
is all-or-nothing for lists of at most one chunk (100 entries); beyond
one chunk, earlier chunks stay committed when a later chunk fails. -/
theorem claim_C2_amended :
    (∀ (st : Store) (c : CacheState) (t : Nat) (us : List InventoryUpdate)
       (r : Except String Unit) (st' : Store) (c' : CacheState),
       repoUpsertInventory st c t us = (r, st', c') → isErr r = true →
       st' = st) ∧
    (∀ (st : Store) (c : CacheState) (t : Nat) (us : List InventoryUpdate)
       (r : Except String Unit) (st' : Store) (c' : CacheState),
       us.length ≤ 100 →
       svcUpsertInventory st c t us = (r, st', c') → isErr r = true →
       st' = st) :=
  ⟨fun _ _ _ _ _ _ _ => repoUpsertInventory_rollback,
   fun _ _ _ _ _ _ _ hlen => svcUpsertInventory_small_atomic hlen⟩

theorem claim_C2_amended_witness :
    (svcUpsertInventory bareStore CacheState.down 1
      [{ hubCode := "H1", skuCode := "BAD", quantity := 1 }]).2.1 =
      bareStore :=
  claim_C2_amended.2 bareStore CacheState.down 1
    [{ hubCode := "H1", skuCode := "BAD", quantity := 1 }]
    (svcUpsertInventory bareStore CacheState.down 1
      [{ hubCode := "H1", skuCode := "BAD", quantity := 1 }]).1
    (svcUpsertInventory bareStore CacheState.down 1
      [{ hubCode := "H1", skuCode := "BAD", quantity := 1 }]).2.1
    (svcUpsertInventory bareStore CacheState.down 1
      [{ hubCode := "H1", skuCode := "BAD", quantity := 1 }]).2.2
    (by decide) rfl (by decide)

/-- The preloaded row of `padStore` returned for the code `S2`. -/
def s2Row : InvRow :=
  { inv := { tenantId := 1, hubId := 1, skuId := 20, quantity := 7,
             available := 3, reserved := 2, inTransit := 0 },
    sku := some { id := 20, tenantId := 1, sellerId := 100, code := "S2" },
    hub := some { id := 1, tenantId := 1, code := "H1" } }

/-- The synthesized zero record of `padStore` for the rowless code `S1`. -/
def s1ZeroRow : InvRow :=
  { inv := { tenantId := 1, hubId := 0, skuId := 10, quantity := 0,
             available := 0, reserved := 0, inTransit := 0 },
    sku := some { id := 10, tenantId := 1, sellerId := 100, code := "S1" },
    hub := none }

/-- C8 counterexample: requesting the single resolvable code `S1` that is
stocked in two hubs returns two entries for it, so the result does not
contain exactly one entry per requested catalog code. -/
theorem claim_C8_counterexample :
    (skuGetByCode twoHubStore 1 "S1").isSome = true ∧
    ((svcGetInventory twoHubStore CacheState.down oneCodeFilter).1.toOption.map
      (fun p => ((p.1.filter (fun r => r.sku.map SKU.code == some "S1")).length,
                 p.1.length))) = some (2, 2) := by decide

/-- C8 amended: for a successful SKU-code-filtered `GetInventory`, the
result is the repository page followed by zero padding; every requested
code that resolves contributes at least one entry; a resolvable requested
code with no row in the returned page gets a synthesized all-zero record;
and every padded entry stems from a resolvable requested code (codes that
resolve to no SKU are silently omitted). -/
theorem claim_C8_amended :
    ∀ (st : Store) (c : CacheState) (f : InventoryFilter) (rows : List InvRow)
      (total : Int) (c' : CacheState),
      f.skuCodes ≠ [] →
      svcGetInventory st c f = (Except.ok (rows, total), c') →
      ∃ rows0 pad, rows = rows0 ++ pad ∧
        dbGetInventory st (normFilter f) = Except.ok (rows0, total) ∧
        (∀ code ∈ f.skuCodes, ∀ sku, skuGetByCode st f.tenantId code = some sku →
           ∃ r ∈ rows, ∃ s, r.sku = some s ∧ s.code = code) ∧
        (∀ code ∈ f.skuCodes, ∀ sku, skuGetByCode st f.tenantId code = some sku →
           (∀ r ∈ rows0, ∀ s, r.sku = some s → s.code ≠ code) →
           ∃ r ∈ pad, r.sku = some sku ∧ r.inv.quantity = 0 ∧
             r.inv.available = 0 ∧ r.inv.reserved = 0 ∧ r.inv.inTransit = 0) ∧
        (∀ r ∈ pad, ∃ code sku, code ∈ f.skuCodes ∧
           skuGetByCode st f.tenantId code = some sku ∧ r.sku = some sku) := by
  intro st c f rows total c' hne heq
  obtain ⟨rows0, hdb, hrows⟩ := svcGetInventory_ok_shape hne heq
  refine ⟨rows0,
    zeroPad st f.tenantId (normFilter f)
      ((codeSet f.skuCodes).filter (fun code =>
        !((rows0.filterMap (fun r => r.sku.map SKU.code)).contains code))),
    hrows, hdb, ?_, ?_, ?_⟩
  · intro code hcode sku hsku
    by_cases hcont :
        ((rows0.filterMap (fun r => r.sku.map SKU.code)).contains code) = true
    · have hmem : code ∈ rows0.filterMap (fun r => r.sku.map SKU.code) := by
        simpa using hcont
      obtain ⟨r, hr, hrs⟩ := List.mem_filterMap.1 hmem
      cases hrsku : r.sku with
      | none => rw [hrsku] at hrs; cases hrs
      | some s =>
        rw [hrsku] at hrs
        simp only [Option.map_some'] at hrs
        injection hrs with hrs
        exact ⟨r, by rw [hrows]; exact List.mem_append_left _ hr, s, hrsku, hrs⟩
    · have hfalse : ((rows0.filterMap
          (fun r => r.sku.map SKU.code)).contains code) = false := by
        revert hcont
        cases (rows0.filterMap (fun r => r.sku.map SKU.code)).contains code <;>
          simp
      have hm : code ∈ (codeSet f.skuCodes).filter (fun code =>
          !((rows0.filterMap (fun r => r.sku.map SKU.code)).contains code)) :=
        List.mem_filter.2 ⟨mem_codeSet hcode, by rw [hfalse]; rfl⟩
      obtain ⟨r, hr, hrsku, _⟩ := zeroPad_mem_of (normFilter f) hm hsku
      exact ⟨r, by rw [hrows]; exact List.mem_append_right _ hr, sku, hrsku,
        (skuGetByCode_props hsku).2⟩
  · intro code hcode sku hsku hno
    have hcont :
        ((rows0.filterMap (fun r => r.sku.map SKU.code)).contains code) = false := by
      by_contra hcon
      have hmem : code ∈ rows0.filterMap (fun r => r.sku.map SKU.code) := by
        have : (rows0.filterMap (fun r => r.sku.map SKU.code)).contains code
            = true := by
          revert hcon
          cases (rows0.filterMap (fun r => r.sku.map SKU.code)).contains code <;>
            simp
        simpa using this
      obtain ⟨r, hr, hrs⟩ := List.mem_filterMap.1 hmem
      cases hrsku : r.sku with
      | none => rw [hrsku] at hrs; cases hrs
      | some s =>
        rw [hrsku] at hrs
        simp only [Option.map_some'] at hrs
        injection hrs with hrs
        exact hno r hr s hrsku hrs
    have hm : code ∈ (codeSet f.skuCodes).filter (fun code =>
        !((rows0.filterMap (fun r => r.sku.map SKU.code)).contains code)) :=
      List.mem_filter.2 ⟨mem_codeSet hcode, by rw [hcont]; rfl⟩
    exact zeroPad_mem_of (normFilter f) hm hsku
  · intro r hr
    obtain ⟨code, hcodem, sku, hskur, hrsku, _⟩ := zeroPad_mem hr
    have hcs : code ∈ codeSet f.skuCodes := (List.mem_filter.1 hcodem).1
    exact ⟨code, sku, codeSet_subset hcs, hskur, hrsku⟩

theorem claim_C8_amended_witness :
    ∃ rows0 pad, ([s2Row, s1ZeroRow] : List InvRow) = rows0 ++ pad ∧
      dbGetInventory padStore (normFilter twoCodeFilter) =
        Except.ok (rows0, 1) ∧
      (∀ code ∈ twoCodeFilter.skuCodes, ∀ sku,
         skuGetByCode padStore twoCodeFilter.tenantId code = some sku →
         ∃ r ∈ ([s2Row, s1ZeroRow] : List InvRow), ∃ s, r.sku = some s ∧
           s.code = code) ∧
      (∀ code ∈ twoCodeFilter.skuCodes, ∀ sku,
         skuGetByCode padStore twoCodeFilter.tenantId code = some sku →
         (∀ r ∈ rows0, ∀ s, r.sku = some s → s.code ≠ code) →
         ∃ r ∈ pad, r.sku = some sku ∧ r.inv.quantity = 0 ∧
           r.inv.available = 0 ∧ r.inv.reserved = 0 ∧ r.inv.inTransit = 0) ∧
      (∀ r ∈ pad, ∃ code sku, code ∈ twoCodeFilter.skuCodes ∧
         skuGetByCode padStore twoCodeFilter.tenantId code = some sku ∧
         r.sku = some sku) :=
  claim_C8_amended padStore CacheState.down twoCodeFilter [s2Row, s1ZeroRow] 1
    CacheState.down (by decide) (by decide)

/-- C10: for every SKU-code-filtered `GetInventory`, the returned total is
the number of rows matched in the store before pagination — synthesized
zero records are not counted — and there are inputs on which the returned
list is strictly longer than both the total and the page size. -/
theorem claim_C10 :
    (∀ (st : Store) (c : CacheState) (f : InventoryFilter) (rows : List InvRow)
       (total : Int) (c' : CacheState),
       f.skuCodes ≠ [] →
       svcGetInventory st c f = (Except.ok (rows, total), c') →
       ∃ all, dbQueryRows st (normFilter f) = Except.ok all ∧
         total = (all.length : Int)) ∧
    (∃ rows total c',
       svcGetInventory padStore CacheState.down twoCodeFilter =
         (Except.ok (rows, total), c') ∧
       total < (rows.length : Int) ∧
       (normFilter twoCodeFilter).pageSize < (rows.length : Int)) := by
  constructor
  · intro st c f rows total c' hne heq
    obtain ⟨rows0, hdb, _⟩ := svcGetInventory_ok_shape hne heq
    obtain ⟨all, hq, htot, _⟩ := dbGetInventory_ok_shape hdb
    exact ⟨all, hq, htot⟩
  · exact ⟨[s2Row, s1ZeroRow], 1, CacheState.down, by decide, by decide,
      by decide⟩

theorem claim_C10_witness :
    ∃ all, dbQueryRows padStore (normFilter twoCodeFilter) = Except.ok all ∧
      (1 : Int) = (all.length : Int) :=
  claim_C10.1 padStore CacheState.down twoCodeFilter [s2Row, s1ZeroRow] 1
    CacheState.down (by decide) (by decide)

end IMS
